import Mathlib

/-! # PlushToyFirmware: WAV container codec, playback state machine, recording loop

A shallow embedding of `WAVFileWriter.cpp`, `WAVFileReader.cpp`, `I2SManager.cpp`
and `SpeakerManager.cpp`.

Conventions of the embedding
* C++ `int`, `int32_t`, `int16_t`, `short` values are Lean `Int`s; every
  arithmetic result stored in such a variable goes through `int32` / `int16`
  (two's-complement wrap-around, the behaviour of the ESP32 tool chain).
* `unsigned long` / `size_t` values (32 bits on the ESP32) are `Nat`s reduced
  modulo `2^32`.
* `char` arrays and file contents are lists of byte values (`Nat`, `0..255`).
* The header structs have no padding (4+4+4+4+4+2+2+4+4+2+2+4+4 = 44 bytes)
  and the target is little-endian, so writing the struct writes the fields in
  declaration order, least significant byte first.
-/

namespace PlushToy

/-! ## Machine integers -/

/-- Value kept by a signed 32-bit variable when the mathematical result is `x`. -/
def int32 (x : Int) : Int := (x + 2147483648) % 4294967296 - 2147483648

/-- Value kept by a signed 16-bit variable when the mathematical result is `x`. -/
def int16 (x : Int) : Int := (x + 32768) % 65536 - 32768

/-- Value of `x` converted to a 32-bit unsigned variable. -/
def uint32 (x : Int) : Nat := (x % 4294967296).toNat

/-- Value of `x` converted to a 16-bit unsigned bit pattern. -/
def uint16 (x : Int) : Nat := (x % 65536).toNat

/-- C++ signed division: the quotient is truncated toward zero. -/
def cdiv (a b : Int) : Int := Int.tdiv a b

/-- Range of a signed 32-bit integer. -/
def InInt32 (x : Int) : Prop := -2147483648 ≤ x ∧ x ≤ 2147483647

instance (x : Int) : Decidable (InInt32 x) := by unfold InInt32; infer_instance

/-! ## Little-endian byte images -/

/-- The two bytes of a 16-bit value, least significant first. -/
def le16 (x : Int) : List Nat :=
  let u := uint16 x
  [u % 256, u / 256 % 256]

/-- The four bytes of a 32-bit value, least significant first. -/
def le32 (x : Int) : List Nat :=
  let u := uint32 x
  [u % 256, u / 256 % 256, u / 65536 % 256, u / 16777216 % 256]

/-- Byte `i` of a byte list, `0` when the list is too short. -/
def byteAt (bs : List Nat) (i : Nat) : Nat := bs.getD i 0

/-- Signed 16-bit value stored little-endian at offset `i`. -/
def rd16 (bs : List Nat) (i : Nat) : Int :=
  int16 (Int.ofNat (byteAt bs i + 256 * byteAt bs (i + 1)))

/-- Signed 32-bit value stored little-endian at offset `i`. -/
def rd32 (bs : List Nat) (i : Nat) : Int :=
  int32 (Int.ofNat (byteAt bs i + 256 * byteAt bs (i + 1) + 65536 * byteAt bs (i + 2)
    + 16777216 * byteAt bs (i + 3)))

/-- The four bytes at offset `i` (a `char[4]` field). -/
def rdTag (bs : List Nat) (i : Nat) : List Nat :=
  [byteAt bs i, byteAt bs (i + 1), byteAt bs (i + 2), byteAt bs (i + 3)]

/-- The bytes of a string literal. -/
def tag (s : String) : List Nat := s.toList.map Char.toNat

/-- Result of `strncpy(dst, src, 4)` into a `char[4]`: the first four bytes of
`src`, padded with zero bytes. -/
def strncpy4 (src : List Nat) : List Nat :=
  [byteAt src 0, byteAt src 1, byteAt src 2, byteAt src 3]

/-! ## Config.h -/

/-- `#define CHANNEL 1` (mono). -/
def CHANNEL : Int := 1

/-- `#define RECORDING_LENGTH 2100` (milliseconds). -/
def RECORDING_LENGTH : Int := 2100

/-- `#define SAMPLE_RATE 8000` (Hz). -/
def SAMPLE_RATE : Int := 8000

/-! ## The WAV header (`struct wav_header` / `struct wav_header_`, same layout) -/

/-- The 44-byte header record of `WAVFileWriter.h` and `WAVFileReader.h`. -/
structure wav_header where
  riff : List Nat
  flength : Int
  wave : List Nat
  fmt : List Nat
  chunk_size : Int
  format_tag : Int
  num_chans : Int
  srate : Int
  bytes_per_sec : Int
  bytes_per_samp : Int
  bits_per_samp : Int
  data : List Nat
  dlength : Int
  deriving DecidableEq, Repr

/-- The reader declares the same record under the name `wav_header_`. -/
abbrev wav_header_ := wav_header

/-- The value of `sizeof(m_header)`. -/
def sizeof_header : Nat := 44

/-- Memory image of a header: what `write((uint8_t*)&m_header, sizeof(m_header))`
sends to the file. -/
def headerBytes (h : wav_header) : List Nat :=
  strncpy4 h.riff ++ le32 h.flength ++ strncpy4 h.wave ++ strncpy4 h.fmt ++ le32 h.chunk_size
    ++ le16 h.format_tag ++ le16 h.num_chans ++ le32 h.srate ++ le32 h.bytes_per_sec
    ++ le16 h.bytes_per_samp ++ le16 h.bits_per_samp ++ strncpy4 h.data ++ le32 h.dlength

/-- Header held by the struct once the 44 bytes `bs` have been copied over it:
what `read((uint8_t*)&m_header, sizeof(m_header))` leaves after a full read. -/
def parseHeader (bs : List Nat) : wav_header_ where
  riff := rdTag bs 0
  flength := rd32 bs 4
  wave := rdTag bs 8
  fmt := rdTag bs 12
  chunk_size := rd32 bs 16
  format_tag := rd16 bs 20
  num_chans := rd16 bs 22
  srate := rd32 bs 24
  bytes_per_sec := rd32 bs 28
  bytes_per_samp := rd16 bs 32
  bits_per_samp := rd16 bs 34
  data := rdTag bs 36
  dlength := rd32 bs 40

/-! ## The SD `File` object -/

/-- An SD-card file handle: whether it is open, the file content and the cursor. -/
structure File where
  isOpen : Bool
  bytes : List Nat
  pos : Nat
  deriving DecidableEq, Repr

/-- Handle returned by a failed `SD.open`. -/
def File.invalid : File := ⟨false, [], 0⟩

/-- Handle returned by `SD.open(path, FILE_WRITE)`: an empty file when the card
accepts the path, an invalid handle otherwise. -/
def File.openWrite (ok : Bool) : File := ⟨ok, [], 0⟩

/-- Handle returned by `SD.open(path)`: the stored content when the path
exists, an invalid handle otherwise. -/
def File.openRead (content : Option (List Nat)) : File :=
  match content with
  | some bs => ⟨true, bs, 0⟩
  | none => File.invalid

/-- Writing `bs` at the cursor: overwrites what is there, extends the file at
its end, advances the cursor. A closed handle ignores the write. -/
def File.write (f : File) (bs : List Nat) : File :=
  if f.isOpen then
    { f with bytes := f.bytes.take f.pos ++ bs ++ f.bytes.drop (f.pos + bs.length),
             pos := f.pos + bs.length }
  else f

/-- Moving the cursor to `p`. -/
def File.seek (f : File) (p : Nat) : File :=
  if f.isOpen then { f with pos := p } else f

/-- Closing the handle. -/
def File.close (f : File) : File := { f with isOpen := false }

/-- Reading up to `n` bytes at the cursor: the bytes obtained (fewer than `n`
at the end of the file, none from a closed handle) and the advanced handle. -/
def File.read (f : File) (n : Nat) : List Nat × File :=
  if f.isOpen then
    let got := (f.bytes.drop f.pos).take n
    (got, { f with pos := f.pos + got.length })
  else ([], f)

/-! ## WAVFileWriter -/

/-- The members of `class WAVFileWriter`. -/
structure WAVFileWriter where
  m_file : File
  m_header : wav_header
  m_totalSamples : Int
  m_samplesWritten : Int
  m_channels : Int
  m_sampleRate : Int
  deriving DecidableEq, Repr

/-- Header initialised by the constructor `WAVFileWriter::WAVFileWriter`
(lines 24-39); `m_totalSamples` is `sample_rate * duration_seconds`. -/
def WAVFileWriter.initHeader (num_channels sample_rate duration_seconds : Int) : wav_header :=
  let m_totalSamples := int32 (sample_rate * duration_seconds)
  let m_channels := int16 num_channels
  let num_chans := int16 num_channels
  let srate := int32 sample_rate
  let bits_per_samp : Int := 16
  let bytes_per_sec := int32 (int32 (cdiv (int32 (srate * bits_per_samp)) 8) * num_chans)
  let bytes_per_samp := int16 (int32 (cdiv bits_per_samp 8 * num_chans))
  let dlength := int32 (int32 (m_totalSamples * m_channels) * 2)
  let flength := int32 (dlength + sizeof_header - 8)
  { riff := strncpy4 (tag "RIFF")
    flength := flength
    wave := strncpy4 (tag "WAVE")
    fmt := strncpy4 (tag "fmt ")
    chunk_size := 16
    format_tag := 1
    num_chans := num_chans
    srate := srate
    bytes_per_sec := bytes_per_sec
    bytes_per_samp := bytes_per_samp
    bits_per_samp := bits_per_samp
    data := strncpy4 (tag "data")
    dlength := dlength }

/-- The constructor `WAVFileWriter::WAVFileWriter`; `sdOk` tells whether
`SD.open(fullPath, FILE_WRITE)` succeeded. -/
def WAVFileWriter.new (sdOk : Bool) (num_channels sample_rate duration_seconds : Int) :
    WAVFileWriter :=
  let m_file := File.openWrite sdOk
  let m_header := WAVFileWriter.initHeader num_channels sample_rate duration_seconds
  { m_file := m_file.write (headerBytes m_header)
    m_header := m_header
    m_totalSamples := int32 (sample_rate * duration_seconds)
    m_samplesWritten := 0
    m_channels := int16 num_channels
    m_sampleRate := int32 sample_rate }

/-- The method `WAVFileWriter::writeFrame`. -/
def WAVFileWriter.writeFrame (w : WAVFileWriter) (left_sample right_sample : Int) :
    WAVFileWriter :=
  if w.m_samplesWritten < w.m_totalSamples then
    let f1 := w.m_file.write (le16 left_sample)
    let f2 := if CHANNEL = 2 then f1.write (le16 right_sample) else f1
    { w with m_file := f2, m_samplesWritten := int16 (w.m_samplesWritten + 1) }
  else w

/-- The method `WAVFileWriter::close`. -/
def WAVFileWriter.close (w : WAVFileWriter) : WAVFileWriter :=
  let dlength := int32 (int32 (w.m_samplesWritten * w.m_channels) * 2)
  let flength := int32 (dlength + sizeof_header - 8)
  let h := { w.m_header with dlength := dlength, flength := flength }
  { w with m_header := h, m_file := ((w.m_file.seek 0).write (headerBytes h)).close }

/-- A run of `writeFrame` calls, one per frame of `frames` (left, right). -/
def WAVFileWriter.writeFrames (w : WAVFileWriter) (frames : List (Int × Int)) : WAVFileWriter :=
  frames.foldl (fun acc fr => acc.writeFrame fr.1 fr.2) w

/-! ## I2SManager -/

/-- The members of `class I2SManager` that the playback path uses, together
with the samples handed to `i2s_write` so far (oldest first). -/
structure I2SManager where
  sample_rate : Int
  playing : Bool
  written : List Int
  deriving DecidableEq, Repr

/-- The constructor `I2SManager::I2SManager`. -/
def I2SManager.new (sample_rate : Int) : I2SManager := ⟨sample_rate, false, []⟩

/-- The method `I2SManager::begin`. -/
def I2SManager.begin (m : I2SManager) : I2SManager := { m with playing := true }

/-- The method `I2SManager::writeSample`. -/
def I2SManager.writeSample (m : I2SManager) (sample : Int) : I2SManager :=
  if m.playing then { m with written := m.written ++ [sample] } else m

/-- The method `I2SManager::stop`. -/
def I2SManager.stop (m : I2SManager) : I2SManager :=
  if m.playing then { m with playing := false } else m

/-! ## WAVFileReader -/

/-- The enumeration `WAVFileReader::PlaybackState`. -/
inductive PlaybackState where
  | STOPPED
  | PLAYING
  | PAUSED
  deriving DecidableEq, Repr

/-- The members of `class WAVFileReader`. `xPlaybackTask` is `true` when the
task handle is not `NULL`; `xSemaphore` is `true` when the binary semaphore
holds its token. -/
structure WAVFileReader where
  m_file : File
  m_header : wav_header_
  m_dataSize : Int
  m_currentPos : Int
  m_i2sOutput : Option I2SManager
  xPlaybackTask : Bool
  m_playbackState : PlaybackState
  xSemaphore : Bool
  deriving DecidableEq, Repr

/-- The constructor `WAVFileReader::WAVFileReader`. The members it does not
initialise (`m_header`, `m_dataSize`, `m_i2sOutput`, and `xSemaphore` when the
file cannot be opened) keep the prior memory content `mem`; `content` is what
the card stores under `file_name`, if anything. -/
def WAVFileReader.new (mem : WAVFileReader) (content : Option (List Nat)) : WAVFileReader :=
  let m_file := File.openRead content
  { mem with
    m_currentPos := 0
    m_playbackState := PlaybackState.STOPPED
    xPlaybackTask := false
    m_file := m_file
    xSemaphore := if m_file.isOpen then false else mem.xSemaphore }

/-- The method `WAVFileReader::open`: the returned flag and the reader left
behind. A short read overwrites only the leading bytes of `m_header`. -/
def WAVFileReader.open (r : WAVFileReader) : Bool × WAVFileReader :=
  if !r.m_file.isOpen then (false, r)
  else
    let (got, f) := r.m_file.read sizeof_header
    if got.length ≠ sizeof_header then
      (false, { r with m_file := f,
                       m_header := parseHeader (got ++ (headerBytes r.m_header).drop got.length) })
    else
      let h := parseHeader got
      (true, { r with m_file := f, m_header := h, m_dataSize := h.dlength, m_currentPos := 0,
                      m_i2sOutput := some (I2SManager.new h.srate).begin })

/-- The method `WAVFileReader::readSample`: the sample read, if any, and the
reader left behind. -/
def WAVFileReader.readSample (r : WAVFileReader) : Option Int × WAVFileReader :=
  if r.m_currentPos ≥ r.m_dataSize then (none, r)
  else
    let (got, f) := r.m_file.read 2
    if got.length ≠ 2 then (none, { r with m_file := f })
    else (some (rd16 got 0), { r with m_file := f, m_currentPos := int32 (r.m_currentPos + 2) })

/-- The method `WAVFileReader::isEnd`. -/
def WAVFileReader.isEnd (r : WAVFileReader) : Bool := decide (r.m_currentPos ≥ r.m_dataSize)

/-- The method `WAVFileReader::startPlayback`. -/
def WAVFileReader.startPlayback (r : WAVFileReader) : WAVFileReader :=
  if r.m_playbackState = PlaybackState.STOPPED then
    { r with m_playbackState := PlaybackState.PLAYING, xPlaybackTask := true }
  else r

/-- The method `WAVFileReader::stopPlayback`, called from outside the playback
task. -/
def WAVFileReader.stopPlayback (r : WAVFileReader) : WAVFileReader :=
  if r.m_playbackState ≠ PlaybackState.STOPPED then
    { r with m_playbackState := PlaybackState.STOPPED
             xPlaybackTask := false
             m_i2sOutput := r.m_i2sOutput.map I2SManager.stop
             m_currentPos := 0 }
  else r

/-- The method `WAVFileReader::stopPlayback` as the playback task runs it on
itself at the end of the data: `vTaskDelete(xPlaybackTask)` on the caller's own
handle does not return, so nothing after it is executed. -/
def WAVFileReader.stopPlaybackInTask (r : WAVFileReader) : WAVFileReader :=
  if r.m_playbackState ≠ PlaybackState.STOPPED then
    if r.xPlaybackTask then { r with m_playbackState := PlaybackState.STOPPED }
    else { r with m_playbackState := PlaybackState.STOPPED
                  m_i2sOutput := r.m_i2sOutput.map I2SManager.stop
                  m_currentPos := 0 }
  else r

/-- The method `WAVFileReader::pausePlayback`. -/
def WAVFileReader.pausePlayback (r : WAVFileReader) : WAVFileReader :=
  if r.m_playbackState = PlaybackState.PLAYING then
    { r with m_playbackState := PlaybackState.PAUSED }
  else r

/-- The method `WAVFileReader::resumePlayback`. -/
def WAVFileReader.resumePlayback (r : WAVFileReader) : WAVFileReader :=
  if r.m_playbackState = PlaybackState.PAUSED then
    { r with m_playbackState := PlaybackState.PLAYING, xSemaphore := true }
  else r

/-- The samples the I2S output has received so far. -/
def WAVFileReader.output (r : WAVFileReader) : List Int :=
  match r.m_i2sOutput with
  | some m => m.written
  | none => []

/-! ## The playback task and its interleavings -/

/-- A reader together with the scheduler's view of its playback task. -/
structure Playback where
  reader : WAVFileReader
  taskAlive : Bool
  deriving DecidableEq, Repr

/-- One iteration of the loop of `WAVFileReader::playbackTask`: the reader left
behind and whether the task still exists. In `PAUSED` the task takes the
semaphore token when there is one and otherwise stays blocked. -/
def playbackTaskStep (r : WAVFileReader) : WAVFileReader × Bool :=
  match r.m_playbackState with
  | PlaybackState.PLAYING =>
    match r.readSample with
    | (some sample, r1) =>
      ({ r1 with m_i2sOutput := r1.m_i2sOutput.map (fun m => m.writeSample sample) }, true)
    | (none, r1) => (r1.stopPlaybackInTask, false)
  | PlaybackState.PAUSED => ({ r with xSemaphore := false }, true)
  | PlaybackState.STOPPED => (r, false)

/-- What can happen to a playing reader: a call of `pausePlayback` or
`resumePlayback` from the controller, or one iteration of the playback task. -/
inductive PlayEvent where
  | pause
  | resume
  | taskStep
  deriving DecidableEq, Repr

/-- Effect of one event. -/
def Playback.step (s : Playback) : PlayEvent → Playback
  | PlayEvent.pause => { s with reader := s.reader.pausePlayback }
  | PlayEvent.resume => { s with reader := s.reader.resumePlayback }
  | PlayEvent.taskStep =>
    if s.taskAlive then
      let (r, alive) := playbackTaskStep s.reader
      ⟨r, alive⟩
    else s

/-- Effect of a sequence of events. -/
def Playback.run (s : Playback) (evs : List PlayEvent) : Playback := evs.foldl Playback.step s

/-- State right after `startPlayback` on a stopped reader: the state is
`PLAYING` and `xTaskCreate` has created the task. -/
def Playback.start (r : WAVFileReader) : Playback :=
  ⟨r.startPlayback, decide (r.m_playbackState = PlaybackState.STOPPED)⟩

/-- The samples `readSample` delivers from a file whose unread part is `bs`,
with read offset `pos` and data size `dataSize`. -/
def samplesFrom (dataSize : Int) : Int → List Nat → List Int
  | pos, b0 :: b1 :: rest =>
    if pos ≥ dataSize then [] else rd16 [b0, b1] 0 :: samplesFrom dataSize (int32 (pos + 2)) rest
  | _, _ => []

/-- The samples a reader has not yet delivered. -/
def WAVFileReader.pending (r : WAVFileReader) : List Int :=
  if r.m_file.isOpen then samplesFrom r.m_dataSize r.m_currentPos (r.m_file.bytes.drop r.m_file.pos)
  else []

/-! ## SpeakerManager: playback control -/

/-- The members of `class SpeakerManager` that playback and recording use;
`wavfileReader` / `wavfileWriter` are `none` for a null pointer. -/
structure SpeakerManager where
  currentVolume : Int
  wavfileReader : Option WAVFileReader
  wavfileWriter : Option WAVFileWriter
  isPaused : Bool
  buffer : List Int
  deriving DecidableEq, Repr

/-- The method `SpeakerManager::stopPlayback`. -/
def SpeakerManager.stopPlayback (sm : SpeakerManager) : SpeakerManager :=
  match sm.wavfileReader with
  | some _ => { sm with wavfileReader := none }
  | none => sm

/-- The method `SpeakerManager::pausePlayback`. -/
def SpeakerManager.pausePlayback (sm : SpeakerManager) : SpeakerManager :=
  match sm.wavfileReader with
  | some r => { sm with wavfileReader := some r.pausePlayback }
  | none => sm

/-- The method `SpeakerManager::startPlayback`; `mem` is the memory the new
reader is built in and `content` what the card stores under `file_name`. When
`open` fails the reader is deleted (line 59): its destructor finds the state
`STOPPED`, closes the file and runs `delete m_i2sOutput` on a pointer that
neither the constructor nor the failed `open` has assigned, so the pointer is
whatever `mem` held. Deleting a null pointer does nothing; for any other
content the call has no defined outcome and the result is `none`. -/
def SpeakerManager.startPlayback (sm : SpeakerManager) (mem : WAVFileReader)
    (content : Option (List Nat)) : Option SpeakerManager :=
  let sm1 := sm.stopPlayback
  let r := WAVFileReader.new mem content
  match r.open with
  | (true, r1) => some { sm1 with wavfileReader := some r1.startPlayback }
  | (false, r1) =>
    match r1.m_i2sOutput with
    | none => some { sm1 with wavfileReader := none }
    | some _ => none

/-! ## SpeakerManager: recording -/

/-- What one iteration of the recording loop observes: `micros()` in the loop
condition, `micros()` in the due test, the value `micManager->readOutput()`
returns when it is called, and `digitalRead(BUTTON_02_PIN)` (`true` is HIGH,
the button released). -/
structure LoopObs where
  tCond : Nat
  tDue : Nat
  mic : Int
  button : Bool
  deriving DecidableEq, Repr

/-- How the recording loop was left: the time condition failed, the stop
button was seen pressed, or the observed iterations ended with the loop still
running. -/
inductive LoopExit where
  | timeUp
  | stopButton
  | running
  deriving DecidableEq, Repr

/-- Local state of `recordAudio` during the loop; `stores` lists the buffer
indices written so far, oldest first. -/
structure RecState where
  buffer : List Int
  sampleIndex : Int
  nextSampleTime : Nat
  stores : List Int
  deriving DecidableEq, Repr

/-- A 32-bit `unsigned long` value. -/
def ulong (n : Nat) : Nat := n % 4294967296

/-- The difference `a - b` of two `unsigned long` values. -/
def ulongSub (a b : Nat) : Nat := (ulong a + 4294967296 - ulong b) % 4294967296

/-- `const int buffer_size = sample_rate * (duration_seconds / 1000)`. -/
def bufferSize (duration_seconds sample_rate : Int) : Int :=
  int32 (sample_rate * cdiv duration_seconds 1000)

/-- The right-hand side of the loop condition, `duration_seconds * 1000`,
converted to `unsigned long` for the comparison. -/
def loopLimit (duration_seconds : Int) : Nat := uint32 (int32 (duration_seconds * 1000))

/-- `unsigned long sampleInterval = 1000000 / sample_rate`. -/
def sampleInterval (sample_rate : Int) : Nat := uint32 (cdiv 1000000 sample_rate)

/-- The body of the due test (lines 160-168) at clock reading `t`. -/
def dueStep (buffer_size : Int) (interval : Nat) (t : Nat) (mic : Int) (st : RecState) :
    RecState :=
  if ulong t ≥ st.nextSampleTime then
    let st1 :=
      if st.sampleIndex < buffer_size then
        { st with buffer := st.buffer.set st.sampleIndex.toNat (int16 mic)
                  sampleIndex := st.sampleIndex + 1
                  stores := st.stores ++ [st.sampleIndex] }
      else st
    { st1 with nextSampleTime := ulong (st1.nextSampleTime + interval) }
  else st

/-- The `while` loop of `recordAudio` (lines 156-179) run over the observed
iterations. The wait for the button release after a press reads nothing the
function uses and is left out. -/
def recordLoop (buffer_size : Int) (startTime limit interval : Nat) :
    List LoopObs → RecState → RecState × LoopExit
  | [], st => (st, LoopExit.running)
  | o :: rest, st =>
    if ulongSub o.tCond startTime < limit then
      let st1 := dueStep buffer_size interval o.tDue o.mic st
      if !o.button then (st1, LoopExit.stopButton)
      else recordLoop buffer_size startTime limit interval rest st1
    else (st, LoopExit.timeUp)

/-- Why a call of `recordAudio` did not run to its end: the allocation of a
negative number of slots, the division by a zero sample rate, or a trace that
stops while the loop is still running. -/
inductive RecFault where
  | badAlloc
  | divByZero
  | traceEnded
  deriving DecidableEq, Repr

/-- What a completed call of `recordAudio` leaves: the controller, the loop
state at the exit of the loop and the way the loop was left. -/
structure RecResult where
  sm : SpeakerManager
  loopState : RecState
  exit : LoopExit
  deriving DecidableEq, Repr

/-- Content of a freshly allocated, uninitialised buffer of `n` slots taken
from the heap content `heap`. -/
def allocBuffer (heap : Nat → Int) (n : Nat) : List Int := (List.range n).map heap

/-- The loop of `recordAudio` with the locals the function sets up before it
(lines 143-153): the buffer of `buffer_size` uninitialised slots, `sampleIndex
= 0`, `nextSampleTime = startTime`. -/
def recordAudioLoop (duration_seconds sample_rate : Int) (heap : Nat → Int) (startTime : Nat)
    (obs : List LoopObs) : RecState × LoopExit :=
  recordLoop (bufferSize duration_seconds sample_rate) (ulong startTime)
    (loopLimit duration_seconds) (sampleInterval sample_rate) obs
    ⟨allocBuffer heap (bufferSize duration_seconds sample_rate).toNat, 0, ulong startTime, []⟩

/-- The method `SpeakerManager::recordAudio`. `sdOk` tells whether the card
opens the target file, `heap` is the content of the memory the buffer is
allocated in, `startTime` the first `micros()` reading and `obs` the
observations of the loop iterations. The function never assigns the pointer
`wavfileReader` and makes no call through it; what the reader's own playback
task does to the reader while the function runs is added by
`SpeakerManager.recordAudioWithTask`. -/
def SpeakerManager.recordAudio (sm : SpeakerManager) (duration_seconds sample_rate : Int)
    (sdOk : Bool) (heap : Nat → Int) (startTime : Nat) (obs : List LoopObs) :
    Except RecFault RecResult :=
  if bufferSize duration_seconds sample_rate < 0 then Except.error RecFault.badAlloc
  else
    let w := WAVFileWriter.new sdOk CHANNEL sample_rate (cdiv duration_seconds 1000)
    if sample_rate = 0 then Except.error RecFault.divByZero
    else
      match recordAudioLoop duration_seconds sample_rate heap startTime obs with
      | (_, LoopExit.running) => Except.error RecFault.traceEnded
      | (st, ex) =>
        let w1 := w.writeFrames (st.buffer.map (fun v => (v, v)))
        Except.ok ⟨{ sm with wavfileWriter := some w1.close, buffer := [] }, st, ex⟩

/-- The reader after `n` further iterations of the loop of its playback task
(`playbackTaskStep`). An iteration on a `STOPPED` reader, whose task has ended,
changes nothing. -/
def WAVFileReader.afterTaskSteps (r : WAVFileReader) : Nat → WAVFileReader
  | 0 => r
  | n + 1 => (playbackTaskStep (r.afterTaskSteps n)).1

/-- A call of `SpeakerManager::recordAudio` together with the playback task of
the reader the controller points to. `recordAudio` runs on the calling task;
the playback task is a FreeRTOS task of its own (`xTaskCreate` in
`WAVFileReader::startPlayback`) that keeps being scheduled while the recording
loop runs, and completes `taskSteps` iterations before the call returns. The
two share no data: `recordAudio` touches the writer and the buffer, the task
touches the reader. -/
def SpeakerManager.recordAudioWithTask (sm : SpeakerManager)
    (duration_seconds sample_rate : Int) (sdOk : Bool) (heap : Nat → Int) (startTime : Nat)
    (obs : List LoopObs) (taskSteps : Nat) : Except RecFault RecResult :=
  match sm.recordAudio duration_seconds sample_rate sdOk heap startTime obs with
  | Except.error e => Except.error e
  | Except.ok res =>
    Except.ok { res with sm := { res.sm with
      wavfileReader := res.sm.wavfileReader.map (fun r => r.afterTaskSteps taskSteps) } }

/-- The number of iterations of the `while` loop of `recordAudio` whose due
test `micros() >= nextSampleTime` (line 160) passed, counted along the run of
`recordLoop` over the observed iterations. -/
def dueTicks (buffer_size : Int) (startTime limit interval : Nat) :
    List LoopObs → RecState → Nat
  | [], _ => 0
  | o :: rest, st =>
    if ulongSub o.tCond startTime < limit then
      let tick := if ulong o.tDue ≥ st.nextSampleTime then 1 else 0
      if !o.button then tick
      else tick + dueTicks buffer_size startTime limit interval rest
        (dueStep buffer_size interval o.tDue o.mic st)
    else 0

/-- The count `dueTicks` for the loop of `recordAudio` with the locals the
function sets up before it, as in `recordAudioLoop`. -/
def recordAudioTicks (duration_seconds sample_rate : Int) (heap : Nat → Int) (startTime : Nat)
    (obs : List LoopObs) : Nat :=
  dueTicks (bufferSize duration_seconds sample_rate) (ulong startTime)
    (loopLimit duration_seconds) (sampleInterval sample_rate) obs
    ⟨allocBuffer heap (bufferSize duration_seconds sample_rate).toNat, 0, ulong startTime, []⟩

/-- Whether every clock reading of the loop comes less than one sampling
period `interval` after the previous due-test reading (`prev`, at first the
start time), readings never go back, and the 32-bit clock does not wrap within
a period of them. -/
def polledEveryPeriod (interval : Nat) : Nat → List LoopObs → Bool
  | _, [] => true
  | prev, o :: rest =>
    decide (prev ≤ o.tCond) && decide (o.tCond ≤ o.tDue) && decide (o.tDue < prev + interval)
      && decide (o.tDue + interval < 4294967296) && polledEveryPeriod interval o.tDue rest

/-- A controller with no reader, no writer and no buffer. -/
def SpeakerManager.idle : SpeakerManager := ⟨0, none, none, false, []⟩

/-- Reader memory before construction: all members cleared. -/
def WAVFileReader.blank : WAVFileReader :=
  ⟨File.invalid, parseHeader [], 0, 0, none, false, PlaybackState.STOPPED, false⟩

/-- The stores made so far: the stored count is `sampleIndex`, it never passes
the buffer size, and every index written lies inside the buffer. -/
def StoresInBounds (bs : Int) (st : RecState) : Prop :=
  st.sampleIndex = st.stores.length ∧ (st.sampleIndex ≤ bs ∨ st.sampleIndex = 0)
    ∧ ∀ i ∈ st.stores, 0 ≤ i ∧ i < bs

/-- A loop trace for 20 Hz: 85 iterations 25000 microseconds apart (half a
sampling period), the stop button never pressed. -/
def halfPeriodTrace : List LoopObs :=
  (List.range 85).map (fun k => ⟨25000 * k, 25000 * k, 0, true⟩)

/-- What every run that starts from a playing reader keeps true: while the
task exists the reader is not stopped, the output is running and what has been
written followed by what is pending is `total`; once the task has ended the
reader is stopped and exactly `total` has been written. -/
def PlayInv (total : List Int) (s : Playback) : Prop :=
  ∃ m, s.reader.m_i2sOutput = some m ∧
    (s.taskAlive = true → s.reader.m_playbackState ≠ PlaybackState.STOPPED ∧ m.playing = true
      ∧ m.written ++ s.reader.pending = total)
    ∧ (s.taskAlive = false → s.reader.m_playbackState = PlaybackState.STOPPED
      ∧ m.written = total)

/-- The playing session `SpeakerManager::startPlayback` sets up on a stored
file `bs`: a reader built in memory `mem`, opened, then started. -/
def Playback.ofFile (mem : WAVFileReader) (bs : List Nat) : Playback :=
  Playback.start ((WAVFileReader.new mem (some bs)).open).2

/-- The run in which no pause or resume is issued: `n` iterations of the task. -/
def Playback.uninterrupted (s : Playback) (n : Nat) : Playback :=
  s.run (List.replicate n PlayEvent.taskStep)

/-- A stored file: the 44-byte header of a mono 8000 Hz file followed by the
two samples 1 and 2. -/
def twoSampleFile : List Nat :=
  (((WAVFileWriter.new true 1 8000 1).writeFrames [(1, 1), (2, 2)]).close).m_file.bytes

/-- The controller `SpeakerManager::startPlayback` leaves when it is called on
an idle controller for the two-sample file: it holds the started reader. -/
def SpeakerManager.playingTwoSamples : SpeakerManager :=
  { SpeakerManager.idle with
    wavfileReader := some (Playback.ofFile WAVFileReader.blank twoSampleFile).reader }

/-- The method `SpeakerManager::startRecording`. -/
def SpeakerManager.startRecording (sm : SpeakerManager) : SpeakerManager := sm.stopPlayback

/-! ## SDCardManager -/

/-- `#define EXTENSION ".wav"`. -/
def EXTENSION : String := ".wav"

/-- `#define BASED_RECORDING_NAME "Recording"`. -/
def BASED_RECORDING_NAME : String := "Recording"

/-- `#define RECORDING_FOLDER_PATH "/WebRecording"`. -/
def RECORDING_FOLDER_PATH : String := "/WebRecording"

/-- The Arduino conversion `String(index)` of an `int`: its decimal digits,
after a minus sign when it is negative. -/
def itoa (index : Int) : String :=
  if index < 0 then "-" ++ Nat.repr index.natAbs else Nat.repr index.toNat

/-- The name the loop body builds (lines 62-63):
`String(BASED_RECORDING_NAME) + (index < 10 ? "0" : "") + String(index)`. -/
def recordingName (index : Int) : String :=
  BASED_RECORDING_NAME ++ (if index < 10 then "0" else "") ++ itoa index

/-- The path the loop condition probes (line 65):
`String(RECORDING_FOLDER_PATH) + "/" + filename + String(EXTENSION)`. -/
def recordingPath (filename : String) : String :=
  RECORDING_FOLDER_PATH ++ "/" ++ filename ++ EXTENSION

/-- The `do ... while` loop of `getNextRecordingFilename` run for at most
`fuel` iterations from `index`; `card` lists the paths for which `SD.exists`
answers true. The result is `none` when the iterations run out. -/
def nextFilenameLoop (card : List String) : Nat → Int → Option String
  | 0, _ => none
  | fuel + 1, index =>
    let filename := recordingName index
    let index1 := int32 (index + 1)
    if recordingPath filename ∈ card then nextFilenameLoop card fuel index1 else some filename

/-- The method `SDCardManager::getNextRecordingFilename` with a bound on the
number of loop iterations. -/
def SDCardManager.getNextRecordingFilename (card : List String) (fuel : Nat) : Option String :=
  nextFilenameLoop card fuel 1

/-- The paths of the recordings numbered `1` to `n`. -/
def recordingsUpTo (n : Nat) : List String :=
  (List.range n).map (fun (t : Nat) => recordingPath (recordingName ((t + 1 : Nat) : Int)))

/-- Value of a character read as a decimal digit. -/
def digitValue (c : Char) : Nat := c.toNat - 48

/-- Number written by a list of decimal digits, most significant first. -/
def decimalValue (ds : List Char) : Nat := ds.foldl (fun a c => 10 * a + digitValue c) 0

/-- The index written in a recording path: the digits between the leading
"/WebRecording/Recording" (23 characters) and the trailing ".wav". -/
def pathIndex (path : String) : Nat := decimalValue ((path.data.drop 23).dropLast.dropLast.dropLast.dropLast)

/-- An entry of a directory listing: what `name()`, `isDirectory()` and
`getLastWrite()` (as the `uint32_t` the scan stores) return for it. -/
structure DirEntry where
  name : String
  isDirectory : Bool
  lastWrite : Nat
  deriving DecidableEq, Repr

/-- The Arduino method `String::endsWith`: whether `ext` is the tail of `s`. -/
def endsWith (s ext : String) : Bool := ext.data.isSuffixOf s.data

/-- The body of the scan loop of `getLastRecordedFilename` (lines 94-101) on
the pair (`latestTime`, `latestFilename`). -/
def scanEntry (acc : Nat × String) (file : DirEntry) : Nat × String :=
  if !file.isDirectory && endsWith file.name EXTENSION then
    if file.lastWrite > acc.1 then (file.lastWrite, file.name) else acc
  else acc

/-- The method `SDCardManager::getLastRecordedFilename`; `dir` is the listing
of the recording directory in `openNextFile` order, `none` when the directory
cannot be opened. -/
def SDCardManager.getLastRecordedFilename (dir : Option (List DirEntry)) : String :=
  match dir with
  | none => ""
  | some entries => (entries.foldl scanEntry (0, "")).2

/-- A listing entry that the scan considers: a non-directory whose name ends
in the extension. -/
def IsRecording (e : DirEntry) : Prop := e.isDirectory = false ∧ endsWith e.name EXTENSION = true

/-- What the scan keeps true of the entries `seen` so far: either nothing was
selected and every recording seen has last-write time 0, or the selected entry
is a recording, every recording before it is strictly older and none after it
is newer. -/
def ScanInv (seen : List DirEntry) (acc : Nat × String) : Prop :=
  (acc = (0, "") ∧ ∀ x ∈ seen, IsRecording x → x.lastWrite = 0)
  ∨ ∃ pre e post, seen = pre ++ e :: post ∧ acc = (e.lastWrite, e.name) ∧ IsRecording e
      ∧ (∀ x ∈ pre, IsRecording x → x.lastWrite < e.lastWrite)
      ∧ (∀ x ∈ post, IsRecording x → x.lastWrite ≤ e.lastWrite)

/-! ## Volume and microphone -/

/-- Modelled from the spec: the Arduino macro `constrain(amt, low, high)`
(Arduino core, not under src/), `amt` clamped to the range `low..high`:
`(amt) < (low) ? (low) : ((amt) > (high) ? (high) : (amt))`. -/
def constrain (amt low high : Int) : Int :=
  if amt < low then low else if amt > high then high else amt

/-- The method `SpeakerManager::setVolume`. -/
def SpeakerManager.setVolume (sm : SpeakerManager) (volume : Int) : SpeakerManager :=
  { sm with currentVolume := constrain volume 0 100 }

/-- `#define MIC_RESOLUTION_MIN 0`. -/
def MIC_RESOLUTION_MIN : Int := 0

/-- `#define MIC_RESOLUTION_MAX 1024`. -/
def MIC_RESOLUTION_MAX : Int := 1024

/-- `#define WAV_RESOLUTION_MIN -10000`. -/
def WAV_RESOLUTION_MIN : Int := -10000

/-- `#define WAV_RESOLUTION_MAX 10000`. -/
def WAV_RESOLUTION_MAX : Int := 10000

/-- Modelled from the spec: the Arduino function `map(x, in_min, in_max,
out_min, out_max)` (Arduino core, not under src/), the linear rescaling
`(x - in_min) * (out_max - out_min) / (in_max - in_min) + out_min` in 32-bit
`long` arithmetic with truncating division, `-1` for an empty input range. -/
def map (x in_min in_max out_min out_max : Int) : Int :=
  let run := int32 (in_max - in_min)
  if run = 0 then -1
  else
    let rise := int32 (out_max - out_min)
    let delta := int32 (x - in_min)
    int32 (int32 (cdiv (int32 (delta * rise)) run) + out_min)

/-- The method `MicManager::readOutput`; `micValue` is what
`analogRead(MIC_OUT_PIN)` returns. -/
def MicManager.readOutput (micValue : Int) : Int :=
  int16 (map micValue MIC_RESOLUTION_MIN MIC_RESOLUTION_MAX WAV_RESOLUTION_MIN WAV_RESOLUTION_MAX)

/-! ## Repeated reads -/

/-- The reader left by a successful `open` on the stored file `bs`, built in
memory `mem`. -/
def WAVFileReader.opened (mem : WAVFileReader) (bs : List Nat) : WAVFileReader :=
  ((WAVFileReader.new mem (some bs)).open).2

/-- The reader after `n` calls of `readSample` in a row. -/
def WAVFileReader.readSamples (r : WAVFileReader) : Nat → WAVFileReader
  | 0 => r
  | n + 1 => (r.readSamples n).readSample.2

/-- What repeated reads keep true when the data size `d` is even: the file is
open, the offset is even and between 0 and `d`, the cursor is 44 bytes ahead
of the offset, and the data bytes up to `d` are in the file. -/
def ReadInv (d : Int) (r : WAVFileReader) : Prop :=
  r.m_dataSize = d ∧ r.m_file.isOpen = true ∧ 0 ≤ r.m_currentPos ∧ r.m_currentPos ≤ d
    ∧ r.m_currentPos % 2 = 0 ∧ (r.m_file.pos : Int) = 44 + r.m_currentPos
    ∧ 44 + d ≤ (r.m_file.bytes.length : Int)

/-- A stored file whose header announces three data bytes, followed by
exactly three bytes. -/
def oddDataFile : List Nat :=
  headerBytes { WAVFileWriter.initHeader 1 8000 0 with dlength := 3 } ++ [1, 0, 2]

/-- What the recording loop keeps true: the next-due time is the start time
plus `ticks` periods (as a 32-bit value), the number of stores is `ticks`
capped by the buffer size, and `sampleIndex` counts the stores. -/
def GridInv (bs : Int) (s interval : Nat) (ticks : Nat) (st : RecState) : Prop :=
  st.nextSampleTime = ulong (s + ticks * interval)
    ∧ st.stores.length = min ticks bs.toNat
    ∧ st.sampleIndex = st.stores.length

/-! # Theorems -/

/-! ## Machine integers and byte images -/

theorem int32_of_range (x : Int) (h : InInt32 x) : int32 x = x := by
  unfold InInt32 at h
  unfold int32
  omega

theorem int16_of_range (x : Int) (h1 : -32768 ≤ x) (h2 : x ≤ 32767) : int16 x = x := by
  unfold int16
  omega

theorem cdiv_of_nonneg (a b : Int) (ha : 0 ≤ a) (hb : 0 ≤ b) : cdiv a b = a / b := by
  unfold cdiv
  exact Int.tdiv_eq_ediv ha hb

theorem headerBytes_length (h : wav_header) : (headerBytes h).length = 44 := by
  simp [headerBytes, strncpy4, le32, le16]

theorem rd32_le32_value (x : Int) :
    int32 (Int.ofNat (uint32 x % 256 + 256 * (uint32 x / 256 % 256)
      + 65536 * (uint32 x / 65536 % 256) + 16777216 * (uint32 x / 16777216 % 256))) = int32 x := by
  have h : uint32 x % 256 + 256 * (uint32 x / 256 % 256)
      + 65536 * (uint32 x / 65536 % 256) + 16777216 * (uint32 x / 16777216 % 256) = uint32 x := by
    have : uint32 x < 4294967296 := by unfold uint32; omega
    omega
  rw [h]
  unfold int32 uint32
  simp only [Int.ofNat_eq_coe]
  omega

theorem rd16_le16_value (x : Int) :
    int16 (Int.ofNat (uint16 x % 256 + 256 * (uint16 x / 256 % 256))) = int16 x := by
  have h : uint16 x % 256 + 256 * (uint16 x / 256 % 256) = uint16 x := by
    have : uint16 x < 65536 := by unfold uint16; omega
    omega
  rw [h]
  unfold int16 uint16
  simp only [Int.ofNat_eq_coe]
  omega

/-- Reading back the image of a header returns its data length, as a 32-bit value. -/
theorem parse_headerBytes_dlength (h : wav_header) :
    (parseHeader (headerBytes h)).dlength = int32 h.dlength := by
  simp only [parseHeader, headerBytes, strncpy4, le32, le16, rd32, byteAt, List.cons_append,
    List.nil_append, List.getD_cons_succ, List.getD_cons_zero, List.append_assoc]
  exact rd32_le32_value h.dlength

/-- Reading back the image of a header returns its sample rate, as a 32-bit value. -/
theorem parse_headerBytes_srate (h : wav_header) :
    (parseHeader (headerBytes h)).srate = int32 h.srate := by
  simp only [parseHeader, headerBytes, strncpy4, le32, le16, rd32, byteAt, List.cons_append,
    List.nil_append, List.getD_cons_succ, List.getD_cons_zero, List.append_assoc]
  exact rd32_le32_value h.srate

/-- Reading back the image of a header returns its channel count, as a 16-bit value. -/
theorem parse_headerBytes_num_chans (h : wav_header) :
    (parseHeader (headerBytes h)).num_chans = int16 h.num_chans := by
  simp only [parseHeader, headerBytes, strncpy4, le32, le16, rd16, byteAt, List.cons_append,
    List.nil_append, List.getD_cons_succ, List.getD_cons_zero, List.append_assoc]
  exact rd16_le16_value h.num_chans

/-! ## The header built by the writer -/

/-- The provisional data length is the exact product whenever the product fits
a signed 32-bit field. -/
theorem initHeader_dlength (channels sample_rate duration_seconds : Int)
    (hch : channels = 1 ∨ channels = 2) (hsr : 0 < sample_rate) (hd : 0 ≤ duration_seconds)
    (hfit : sample_rate * duration_seconds * channels * 2 ≤ 2147483647) :
    (WAVFileWriter.initHeader channels sample_rate duration_seconds).dlength
      = sample_rate * duration_seconds * channels * 2 := by
  have hp : 0 ≤ sample_rate * duration_seconds := Int.mul_nonneg (Int.le_of_lt hsr) hd
  simp only [WAVFileWriter.initHeader]
  generalize sample_rate * duration_seconds = p at hp hfit ⊢
  rcases hch with rfl | rfl
  · have h1 : int16 1 = 1 := by decide
    rw [h1, int32_of_range p (by unfold InInt32; omega), int32_of_range (p * 1)
      (by unfold InInt32; omega), int32_of_range (p * 1 * 2) (by unfold InInt32; omega)]
  · have h2 : int16 2 = 2 := by decide
    rw [h2, int32_of_range p (by unfold InInt32; omega), int32_of_range (p * 2)
      (by unfold InInt32; omega), int32_of_range (p * 2 * 2) (by unfold InInt32; omega)]

/-- The file length of the built header is the 32-bit value of the data length plus 36. -/
theorem initHeader_flength (channels sample_rate duration_seconds : Int) :
    (WAVFileWriter.initHeader channels sample_rate duration_seconds).flength
      = int32 ((WAVFileWriter.initHeader channels sample_rate duration_seconds).dlength + 44 - 8) := by
  simp [WAVFileWriter.initHeader, sizeof_header]

/-- C9, as amended: for channels in {1,2}, a positive sample rate and a
non-negative duration whose provisional byte count plus 36 fits a signed
32-bit field, the constructor builds a header with
`dlength = sample_rate * duration_seconds * channels * 2` and
`flength = dlength + 44 - 8`. -/
theorem provisional_lengths_at_build (sdOk : Bool) (channels sample_rate duration_seconds : Int)
    (hch : channels = 1 ∨ channels = 2) (hsr : 0 < sample_rate) (hd : 0 ≤ duration_seconds)
    (hfit : sample_rate * duration_seconds * channels * 2 + 36 ≤ 2147483647) :
    (WAVFileWriter.new sdOk channels sample_rate duration_seconds).m_header.dlength
        = sample_rate * duration_seconds * channels * 2
      ∧ (WAVFileWriter.new sdOk channels sample_rate duration_seconds).m_header.flength
        = (WAVFileWriter.new sdOk channels sample_rate duration_seconds).m_header.dlength
            + 44 - 8 := by
  have hdl := initHeader_dlength channels sample_rate duration_seconds hch hsr hd (by omega)
  have hfl := initHeader_flength channels sample_rate duration_seconds
  have hp : 0 ≤ sample_rate * duration_seconds := Int.mul_nonneg (Int.le_of_lt hsr) hd
  have hnn : 0 ≤ sample_rate * duration_seconds * channels * 2 := by
    rcases hch with rfl | rfl <;> omega
  refine ⟨hdl, ?_⟩
  show (WAVFileWriter.initHeader channels sample_rate duration_seconds).flength = _
  rw [hfl]
  show int32 ((WAVFileWriter.initHeader channels sample_rate duration_seconds).dlength + 44 - 8)
    = (WAVFileWriter.initHeader channels sample_rate duration_seconds).dlength + 44 - 8
  rw [hdl]
  exact int32_of_range _ (by unfold InInt32; omega)

/-- Witness of C9 at the shipped configuration: mono, 8000 Hz, 2 seconds. -/
theorem provisional_lengths_at_build_witness :
    (WAVFileWriter.new true 1 8000 2).m_header.dlength = 8000 * 2 * 1 * 2
      ∧ (WAVFileWriter.new true 1 8000 2).m_header.flength
        = (WAVFileWriter.new true 1 8000 2).m_header.dlength + 44 - 8 :=
  provisional_lengths_at_build true 1 8000 2 (Or.inl rfl) (by decide) (by decide) (by decide)

/-- C9 as stated fails: mono, 44100 Hz and 30000 seconds are admitted by the
claim, yet the 32-bit `dlength` field does not hold the product 2646000000. -/
theorem provisional_lengths_overflow :
    ¬ ((WAVFileWriter.new true 1 44100 30000).m_header.dlength = 44100 * 30000 * 1 * 2) := by
  decide

/-- C10, as amended: for channels in {1,2} and a positive sample rate with
`sample_rate * 16` inside the signed 32-bit range, the constructor builds a
header with the tags "RIFF", "WAVE", "fmt ", "data", `chunk_size = 16`,
`format_tag = 1`, `num_chans = channels`, `srate = sample_rate`,
`bits_per_samp = 16`, `bytes_per_samp = 2 * channels` and
`bytes_per_sec = sample_rate * 2 * channels`, whatever the duration. -/
theorem derived_format_fields_at_build (sdOk : Bool)
    (channels sample_rate duration_seconds : Int)
    (hch : channels = 1 ∨ channels = 2) (hsr : 0 < sample_rate)
    (hfit : sample_rate * 16 ≤ 2147483647) :
    (WAVFileWriter.new sdOk channels sample_rate duration_seconds).m_header.riff = tag "RIFF"
    ∧ (WAVFileWriter.new sdOk channels sample_rate duration_seconds).m_header.wave = tag "WAVE"
    ∧ (WAVFileWriter.new sdOk channels sample_rate duration_seconds).m_header.fmt = tag "fmt "
    ∧ (WAVFileWriter.new sdOk channels sample_rate duration_seconds).m_header.data = tag "data"
    ∧ (WAVFileWriter.new sdOk channels sample_rate duration_seconds).m_header.chunk_size = 16
    ∧ (WAVFileWriter.new sdOk channels sample_rate duration_seconds).m_header.format_tag = 1
    ∧ (WAVFileWriter.new sdOk channels sample_rate duration_seconds).m_header.num_chans = channels
    ∧ (WAVFileWriter.new sdOk channels sample_rate duration_seconds).m_header.srate = sample_rate
    ∧ (WAVFileWriter.new sdOk channels sample_rate duration_seconds).m_header.bits_per_samp = 16
    ∧ (WAVFileWriter.new sdOk channels sample_rate duration_seconds).m_header.bytes_per_samp
        = 2 * channels
    ∧ (WAVFileWriter.new sdOk channels sample_rate duration_seconds).m_header.bytes_per_sec
        = sample_rate * 2 * channels := by
  have hs : int32 sample_rate = sample_rate := int32_of_range _ (by unfold InInt32; omega)
  have hs16 : int32 (sample_rate * 16) = sample_rate * 16 :=
    int32_of_range _ (by unfold InInt32; omega)
  have hdiv : cdiv (sample_rate * 16) 8 = sample_rate * 2 := by
    rw [cdiv_of_nonneg _ _ (by omega) (by decide)]
    omega
  have hs2 : int32 (sample_rate * 2) = sample_rate * 2 :=
    int32_of_range _ (by unfold InInt32; omega)
  have h168 : cdiv 16 8 = 2 := by decide
  have hriff : strncpy4 (tag "RIFF") = tag "RIFF" := by decide
  have hwave : strncpy4 (tag "WAVE") = tag "WAVE" := by decide
  have hfmt : strncpy4 (tag "fmt ") = tag "fmt " := by decide
  have hdata : strncpy4 (tag "data") = tag "data" := by decide
  refine ⟨hriff, hwave, hfmt, hdata, rfl, rfl, ?_, hs, rfl, ?_, ?_⟩
  · show int16 channels = channels
    rcases hch with rfl | rfl <;> decide
  · show int16 (int32 (cdiv 16 8 * int16 channels)) = 2 * channels
    rw [h168]
    rcases hch with rfl | rfl <;> decide
  · show int32 (int32 (cdiv (int32 (int32 sample_rate * 16)) 8) * int16 channels)
      = sample_rate * 2 * channels
    rw [hs, hs16, hdiv, hs2]
    rcases hch with rfl | rfl
    · have h1 : int16 1 = 1 := by decide
      rw [h1]
      exact int32_of_range _ (by unfold InInt32; omega)
    · have h2 : int16 2 = 2 := by decide
      rw [h2]
      exact int32_of_range _ (by unfold InInt32; omega)

/-- Witness of C10 at the shipped configuration: mono, 8000 Hz. -/
theorem derived_format_fields_at_build_witness :
    (WAVFileWriter.new true 1 8000 2).m_header.bytes_per_samp = 2 * 1
      ∧ (WAVFileWriter.new true 1 8000 2).m_header.bytes_per_sec = 8000 * 2 * 1 :=
  have h := derived_format_fields_at_build true 1 8000 2 (Or.inl rfl) (by decide) (by decide)
  ⟨h.2.2.2.2.2.2.2.2.2.1, h.2.2.2.2.2.2.2.2.2.2⟩

/-- C10 as stated fails: stereo at the positive `int` sample rate 2^30 is
admitted by the claim, yet the 32-bit `bytes_per_sec` field does not hold
`sample_rate * 2 * channels = 2^32`. -/
theorem derived_format_fields_overflow :
    ¬ ((WAVFileWriter.new true 2 1073741824 0).m_header.bytes_per_sec = 1073741824 * 2 * 2) := by
  decide

/-! ## Header round trip through the file -/

/-- The file a writer leaves right after construction holds exactly the image
of its header. -/
theorem new_file_bytes (channels sample_rate duration_seconds : Int) :
    (WAVFileWriter.new true channels sample_rate duration_seconds).m_file.bytes
      = headerBytes (WAVFileWriter.initHeader channels sample_rate duration_seconds) := by
  simp [WAVFileWriter.new, File.openWrite, File.write]

/-- Opening a file that holds at least 44 bytes succeeds and parses its first 44 bytes. -/
theorem open_of_long_file (mem : WAVFileReader) (bs : List Nat) (hlen : 44 ≤ bs.length) :
    ((WAVFileReader.new mem (some bs)).open).1 = true
      ∧ ((WAVFileReader.new mem (some bs)).open).2.m_header = parseHeader (bs.take 44) := by
  have hl : min 44 bs.length = 44 := by omega
  simp [WAVFileReader.open, WAVFileReader.new, File.openRead, File.read, sizeof_header, hl]

/-- C1, as amended: for channels in {1,2}, a positive `int` sample rate and a
non-negative duration whose byte count `sample_rate * duration_seconds *
channels * 2` fits a signed 32-bit field, the 44 bytes the constructor writes,
read back by `WAVFileReader::open`, give a header with the same channel count,
the same sample rate and that byte count as `dlength`. -/
theorem header_round_trip (mem : WAVFileReader) (channels sample_rate duration_seconds : Int)
    (hch : channels = 1 ∨ channels = 2) (hsr : 0 < sample_rate) (hd : 0 ≤ duration_seconds)
    (hint : sample_rate ≤ 2147483647)
    (hfit : sample_rate * duration_seconds * channels * 2 ≤ 2147483647) :
    ((WAVFileReader.new mem (some
        (WAVFileWriter.new true channels sample_rate duration_seconds).m_file.bytes)).open).1 = true
    ∧ ((WAVFileReader.new mem (some
        (WAVFileWriter.new true channels sample_rate duration_seconds).m_file.bytes)).open).2.m_header.num_chans
        = channels
    ∧ ((WAVFileReader.new mem (some
        (WAVFileWriter.new true channels sample_rate duration_seconds).m_file.bytes)).open).2.m_header.srate
        = sample_rate
    ∧ ((WAVFileReader.new mem (some
        (WAVFileWriter.new true channels sample_rate duration_seconds).m_file.bytes)).open).2.m_header.dlength
        = sample_rate * duration_seconds * channels * 2 := by
  have hlen := headerBytes_length (WAVFileWriter.initHeader channels sample_rate duration_seconds)
  have hopen := open_of_long_file mem
    (headerBytes (WAVFileWriter.initHeader channels sample_rate duration_seconds)) (by omega)
  have htake : (headerBytes (WAVFileWriter.initHeader channels sample_rate duration_seconds)).take 44
      = headerBytes (WAVFileWriter.initHeader channels sample_rate duration_seconds) :=
    List.take_of_length_le (by omega)
  have hdl := initHeader_dlength channels sample_rate duration_seconds hch hsr hd hfit
  have hp : 0 ≤ sample_rate * duration_seconds := Int.mul_nonneg (Int.le_of_lt hsr) hd
  have hnn : 0 ≤ sample_rate * duration_seconds * channels * 2 := by
    rcases hch with rfl | rfl <;> omega
  rw [new_file_bytes, hopen.2, htake, parse_headerBytes_num_chans, parse_headerBytes_srate,
    parse_headerBytes_dlength, hdl]
  refine ⟨hopen.1, ?_, ?_, ?_⟩
  · show int16 (int16 channels) = channels
    rcases hch with rfl | rfl <;> decide
  · show int32 (int32 sample_rate) = sample_rate
    rw [int32_of_range sample_rate (by unfold InInt32; omega)]
    exact int32_of_range sample_rate (by unfold InInt32; omega)
  · exact int32_of_range _ (by unfold InInt32; omega)

/-- Witness of C1 at the shipped configuration: mono, 8000 Hz, 2 seconds read
back by a reader built in default memory. -/
theorem header_round_trip_witness :
    ((WAVFileReader.new WAVFileReader.blank
        (some (WAVFileWriter.new true 1 8000 2).m_file.bytes)).open).2.m_header.dlength
      = 8000 * 2 * 1 * 2 :=
  (header_round_trip WAVFileReader.blank
    1 8000 2 (Or.inl rfl) (by decide) (by decide) (by decide) (by decide)).2.2.2

/-- C1 as stated fails: mono, 44100 Hz and 30000 seconds are admitted by the
claim, yet the header read back does not carry `dlength = 2646000000`. -/
theorem header_round_trip_overflow :
    ¬ (((WAVFileReader.new WAVFileReader.blank
        (some (WAVFileWriter.new true 1 44100 30000).m_file.bytes)).open).2.m_header.dlength
      = 44100 * 30000 * 1 * 2) := by
  decide

/-! ## Counting written frames -/

theorem writeFrames_nil (w : WAVFileWriter) : w.writeFrames [] = w := rfl

theorem writeFrames_cons (w : WAVFileWriter) (fr : Int × Int) (frames : List (Int × Int)) :
    w.writeFrames (fr :: frames) = (w.writeFrame fr.1 fr.2).writeFrames frames := rfl

theorem writeFrames_append (w : WAVFileWriter) (xs ys : List (Int × Int)) :
    w.writeFrames (xs ++ ys) = (w.writeFrames xs).writeFrames ys := by
  simp [WAVFileWriter.writeFrames, List.foldl_append]

/-- While the 16-bit counter stays below both the frame cap and 32767, every
`writeFrame` call counts one frame and leaves header, cap and channels alone. -/
theorem writeFrames_count (frames : List (Int × Int)) (w : WAVFileWriter)
    (h0 : 0 ≤ w.m_samplesWritten)
    (hT : w.m_samplesWritten + frames.length ≤ w.m_totalSamples)
    (h16 : w.m_samplesWritten + frames.length ≤ 32767) :
    (w.writeFrames frames).m_samplesWritten = w.m_samplesWritten + frames.length
      ∧ (w.writeFrames frames).m_header = w.m_header
      ∧ (w.writeFrames frames).m_channels = w.m_channels
      ∧ (w.writeFrames frames).m_totalSamples = w.m_totalSamples := by
  induction frames generalizing w with
  | nil => simp [writeFrames_nil]
  | cons fr rest ih =>
    simp only [List.length_cons, Nat.cast_add, Nat.cast_one] at hT h16
    have hlt : w.m_samplesWritten < w.m_totalSamples := by omega
    have hstep : (w.writeFrame fr.1 fr.2).m_samplesWritten = w.m_samplesWritten + 1 := by
      simp only [WAVFileWriter.writeFrame, hlt, if_true]
      exact int16_of_range _ (by omega) (by omega)
    have hhdr : (w.writeFrame fr.1 fr.2).m_header = w.m_header := by
      simp only [WAVFileWriter.writeFrame, hlt, if_true]
    have hch : (w.writeFrame fr.1 fr.2).m_channels = w.m_channels := by
      simp only [WAVFileWriter.writeFrame, hlt, if_true]
    have htot : (w.writeFrame fr.1 fr.2).m_totalSamples = w.m_totalSamples := by
      simp only [WAVFileWriter.writeFrame, hlt, if_true]
    have := ih (w.writeFrame fr.1 fr.2) (by omega) (by omega) (by omega)
    rw [writeFrames_cons]
    simp only [List.length_cons, Nat.cast_add, Nat.cast_one]
    refine ⟨by omega, by rw [this.2.1, hhdr], by rw [this.2.2.1, hch], by rw [this.2.2.2, htot]⟩

/-- The data length `close` stores is the 32-bit value of counter * channels * 2. -/
theorem close_dlength (w : WAVFileWriter) :
    w.close.m_header.dlength = int32 (int32 (w.m_samplesWritten * w.m_channels) * 2) := rfl

/-- Closing the file leaves the frame counter alone. -/
theorem close_samplesWritten (w : WAVFileWriter) :
    w.close.m_samplesWritten = w.m_samplesWritten := rfl

/-- The file length `close` stores is the 32-bit value of the stored data length plus 36. -/
theorem close_flength (w : WAVFileWriter) :
    w.close.m_header.flength = int32 (w.close.m_header.dlength + 44 - 8) := rfl

/-- Up to 32767 frames the header left by `close` carries the true count. -/
theorem close_after_writeFrames (sdOk : Bool) (channels sample_rate duration_seconds : Int)
    (frames : List (Int × Int)) (hch : channels = 1 ∨ channels = 2)
    (hT : (frames.length : Int) ≤ int32 (sample_rate * duration_seconds))
    (h16 : frames.length ≤ 32767) :
    (((WAVFileWriter.new sdOk channels sample_rate duration_seconds).writeFrames frames).close).m_header.dlength
        = frames.length * channels * 2
    ∧ (((WAVFileWriter.new sdOk channels sample_rate duration_seconds).writeFrames frames).close).m_header.flength
        = frames.length * channels * 2 + 44 - 8 := by
  have hc := writeFrames_count frames (WAVFileWriter.new sdOk channels sample_rate duration_seconds)
    (by simp [WAVFileWriter.new]) (by simpa [WAVFileWriter.new] using hT)
    (by simp only [WAVFileWriter.new]; omega)
  have hcnt : ((WAVFileWriter.new sdOk channels sample_rate duration_seconds).writeFrames
      frames).m_samplesWritten = frames.length := by
    rw [hc.1]; simp [WAVFileWriter.new]
  have hchan : ((WAVFileWriter.new sdOk channels sample_rate duration_seconds).writeFrames
      frames).m_channels = channels := by
    rw [hc.2.2.1]
    show int16 channels = channels
    rcases hch with rfl | rfl <;> decide
  have hdl : (((WAVFileWriter.new sdOk channels sample_rate duration_seconds).writeFrames
      frames).close).m_header.dlength = frames.length * channels * 2 := by
    rw [close_dlength, hcnt, hchan]
    have hn : (frames.length : Int) ≤ 32767 := by omega
    have hn0 : (0 : Int) ≤ (frames.length : Int) := by omega
    generalize (frames.length : Int) = n at hn hn0 ⊢
    rcases hch with rfl | rfl
    · rw [int32_of_range (n * 1) (by unfold InInt32; omega)]
      exact int32_of_range (n * 1 * 2) (by unfold InInt32; omega)
    · rw [int32_of_range (n * 2) (by unfold InInt32; omega)]
      exact int32_of_range (n * 2 * 2) (by unfold InInt32; omega)
  refine ⟨hdl, ?_⟩
  rw [close_flength, hdl]
  have hn : (frames.length : Int) ≤ 32767 := by omega
  have hn0 : (0 : Int) ≤ (frames.length : Int) := by omega
  generalize (frames.length : Int) = n at hn hn0 ⊢
  rcases hch with rfl | rfl
  · exact int32_of_range (n * 1 * 2 + 44 - 8) (by unfold InInt32; omega)
  · exact int32_of_range (n * 2 * 2 + 44 - 8) (by unfold InInt32; omega)

/-- The 32768th accepted frame wraps the 16-bit counter to -32768. -/
theorem writeFrames_wraps (frames : List (Int × Int)) (w : WAVFileWriter)
    (h0 : w.m_samplesWritten = 0) (hT : 32768 ≤ w.m_totalSamples)
    (hlen : frames.length = 32768) :
    (w.writeFrames frames).m_samplesWritten = -32768
      ∧ (w.writeFrames frames).m_channels = w.m_channels := by
  obtain ⟨last, hlast⟩ : ∃ x, frames.drop 32767 = [x] := by
    have hl : (frames.drop 32767).length = 1 := by simp [hlen]
    match hd : frames.drop 32767, hl with
    | [x], _ => exact ⟨x, rfl⟩
  have hsplit : frames = frames.take 32767 ++ [last] := by
    rw [← hlast, List.take_append_drop]
  have htl : (frames.take 32767).length = 32767 := by simp [hlen]
  have hc := writeFrames_count (frames.take 32767) w (by omega) (by rw [htl]; omega)
    (by rw [htl]; omega)
  rw [hsplit, writeFrames_append, writeFrames_cons, writeFrames_nil]
  have hcnt : (w.writeFrames (frames.take 32767)).m_samplesWritten = 32767 := by
    rw [hc.1, htl, h0]; rfl
  have hlt : (w.writeFrames (frames.take 32767)).m_samplesWritten
      < (w.writeFrames (frames.take 32767)).m_totalSamples := by
    rw [hcnt, hc.2.2.2]; omega
  constructor
  · simp only [WAVFileWriter.writeFrame, hlt, if_true]
    rw [hcnt]
    decide
  · simp only [WAVFileWriter.writeFrame, hlt, if_true]
    exact hc.2.2.1

/-- C2, evaluated at the failing input: a mono writer with frame cap
16000 * 3 = 48000 that receives 32768 `writeFrame` calls (all accepted) is
closed with `dlength = -65536` in its header, not 32768 * 1 * 2 = 65536. -/
theorem finalize_count_wraps_at_32768 :
    (((WAVFileWriter.new true 1 16000 3).writeFrames
        (List.replicate 32768 (0, 0))).close).m_header.dlength = -65536 := by
  have h := writeFrames_wraps (List.replicate 32768 (0, 0)) (WAVFileWriter.new true 1 16000 3)
    rfl (by decide) (List.length_replicate _ _)
  rw [close_dlength, h.1, h.2]
  decide

/-! ## The recording loop -/

theorem dueStep_buffer_length (bs : Int) (interval t : Nat) (mic : Int) (st : RecState) :
    (dueStep bs interval t mic st).buffer.length = st.buffer.length := by
  unfold dueStep
  split
  · split <;> simp
  · rfl

theorem recordLoop_buffer_length (bs : Int) (s limit interval : Nat) (obs : List LoopObs)
    (st : RecState) :
    (recordLoop bs s limit interval obs st).1.buffer.length = st.buffer.length := by
  induction obs generalizing st with
  | nil => rfl
  | cons o rest ih =>
    unfold recordLoop
    split
    · split
      · exact dueStep_buffer_length bs interval o.tDue o.mic st
      · rw [ih]
        exact dueStep_buffer_length bs interval o.tDue o.mic st
    · rfl

theorem allocBuffer_length (heap : Nat → Int) (n : Nat) : (allocBuffer heap n).length = n := by
  simp [allocBuffer]

/-- The buffer keeps the size it was allocated with. -/
theorem recordAudioLoop_buffer_length (D R : Int) (heap : Nat → Int) (start : Nat)
    (obs : List LoopObs) :
    (recordAudioLoop D R heap start obs).1.buffer.length = (bufferSize D R).toNat := by
  unfold recordAudioLoop
  rw [recordLoop_buffer_length]
  exact allocBuffer_length heap _

theorem dueStep_storesInBounds (bs : Int) (interval t : Nat) (mic : Int) (st : RecState)
    (h : StoresInBounds bs st) : StoresInBounds bs (dueStep bs interval t mic st) := by
  obtain ⟨h1, h2, h3⟩ := h
  unfold dueStep
  split
  · split
    · rename_i hlt
      refine ⟨?_, ?_, ?_⟩
      · simp only [List.length_append, List.length_singleton, Nat.cast_add, Nat.cast_one]
        omega
      · show st.sampleIndex + 1 ≤ bs ∨ st.sampleIndex + 1 = 0
        omega
      · intro i hi
        simp only [List.mem_append, List.mem_singleton] at hi
        rcases hi with hi | hi
        · exact h3 i hi
        · subst hi
          constructor
          · omega
          · exact hlt
    · exact ⟨h1, h2, h3⟩
  · exact ⟨h1, h2, h3⟩

theorem recordLoop_storesInBounds (bs : Int) (s limit interval : Nat) (obs : List LoopObs)
    (st : RecState) (h : StoresInBounds bs st) :
    StoresInBounds bs (recordLoop bs s limit interval obs st).1 := by
  induction obs generalizing st with
  | nil => exact h
  | cons o rest ih =>
    unfold recordLoop
    split
    · split
      · exact dueStep_storesInBounds bs interval o.tDue o.mic st h
      · exact ih _ (dueStep_storesInBounds bs interval o.tDue o.mic st h)
    · exact h

theorem recordAudioLoop_storesInBounds (D R : Int) (heap : Nat → Int) (start : Nat)
    (obs : List LoopObs) :
    StoresInBounds (bufferSize D R) (recordAudioLoop D R heap start obs).1 := by
  unfold recordAudioLoop
  apply recordLoop_storesInBounds
  exact ⟨rfl, Or.inr rfl, by intro i hi; simp at hi⟩

/-- The buffer size never exceeds the exact product `R * (D / 1000)`, and that
product is at most `R * D / 1000`. -/
theorem bufferSize_le (D R : Int) (hR : 0 < R) (hD : 0 ≤ D) :
    bufferSize D R ≤ R * (D / 1000) ∧ 0 ≤ R * (D / 1000) ∧ 1000 * (R * (D / 1000)) ≤ R * D := by
  have hq0 : 0 ≤ D / 1000 := Int.ediv_nonneg hD (by decide)
  have hx : 0 ≤ R * (D / 1000) := Int.mul_nonneg (Int.le_of_lt hR) hq0
  have hq : 1000 * (D / 1000) ≤ D := by omega
  have hm : R * (1000 * (D / 1000)) ≤ R * D := Int.mul_le_mul_of_nonneg_left hq (Int.le_of_lt hR)
  have he : 1000 * (R * (D / 1000)) = R * (1000 * (D / 1000)) := by ring
  refine ⟨?_, hx, by rw [he]; exact hm⟩
  unfold bufferSize
  rw [cdiv_of_nonneg D 1000 hD (by decide)]
  generalize R * (D / 1000) = x at hx
  unfold int32
  omega

/-- C7: for every sample rate `R > 0`, requested duration `D >= 0` (the
millisecond argument), clock and stop-button trace and at every point of the
loop, the number of samples `recordAudio` has stored in its buffer is at most
`R * D / 1000` (hence at most `R * D`), and every store went to an index that
is non-negative and strictly below the allocated buffer size. -/
theorem recording_duration_bound (D R : Int) (hR : 0 < R) (hD : 0 ≤ D) (heap : Nat → Int)
    (start : Nat) (obs : List LoopObs) :
    ((recordAudioLoop D R heap start obs).1.stores.length : Int) * 1000 ≤ R * D
    ∧ ((recordAudioLoop D R heap start obs).1.stores.length : Int) ≤ R * D
    ∧ (recordAudioLoop D R heap start obs).1.sampleIndex
        = (recordAudioLoop D R heap start obs).1.stores.length
    ∧ ∀ i ∈ (recordAudioLoop D R heap start obs).1.stores,
        0 ≤ i ∧ i < bufferSize D R
          ∧ i.toNat < (recordAudioLoop D R heap start obs).1.buffer.length := by
  obtain ⟨h1, h2, h3⟩ := recordAudioLoop_storesInBounds D R heap start obs
  obtain ⟨hb1, hb2, hb3⟩ := bufferSize_le D R hR hD
  have hlen := recordAudioLoop_buffer_length D R heap start obs
  have hRD : 0 ≤ R * D := Int.mul_nonneg (Int.le_of_lt hR) hD
  refine ⟨by omega, by omega, h1, ?_⟩
  intro i hi
  obtain ⟨hi0, hi1⟩ := h3 i hi
  refine ⟨hi0, hi1, ?_⟩
  rw [hlen]
  omega

/-- Witness of C7 at the shipped configuration (8000 Hz, 2100 ms): one sample
stored, then the stop button is seen pressed. -/
theorem recording_duration_bound_witness :
    ((recordAudioLoop 2100 8000 (fun _ => 0) 0 [⟨0, 0, 1234, false⟩]).1.stores.length : Int) * 1000
      ≤ 8000 * 2100 :=
  (recording_duration_bound 2100 8000 (by decide) (by decide) (fun _ => 0) 0
    [⟨0, 0, 1234, false⟩]).1

/-! ## What `recordAudio` persists -/

/-- A call of `recordAudio` whose allocation succeeds, whose rate is not zero
and whose loop is left writes every slot of the buffer and closes the file. -/
theorem recordAudio_ok (sm : SpeakerManager) (D R : Int) (sdOk : Bool) (heap : Nat → Int)
    (start : Nat) (obs : List LoopObs) (st : RecState) (ex : LoopExit)
    (hbs : 0 ≤ bufferSize D R) (hR : R ≠ 0)
    (hloop : recordAudioLoop D R heap start obs = (st, ex)) (hex : ex ≠ LoopExit.running) :
    sm.recordAudio D R sdOk heap start obs
      = Except.ok ⟨{ sm with
          wavfileWriter := some ((WAVFileWriter.new sdOk CHANNEL R (cdiv D 1000)).writeFrames
            (st.buffer.map (fun v => (v, v)))).close
          buffer := [] }, st, ex⟩ := by
  unfold SpeakerManager.recordAudio
  rw [if_neg (by omega), if_neg hR, hloop]
  cases ex with
  | running => exact absurd rfl hex
  | timeUp => rfl
  | stopButton => rfl

/-- C3, evaluated at the failing input: at the shipped configuration (8000
Hz, 2100 ms, mono) with the stop button seen pressed in the first iteration,
after one sample has been stored, `recordAudio` leaves the loop by the button
with `sampleIndex = 1`, yet it hands all 16000 buffer slots to `writeFrame`
and closes the file with `dlength = 32000`, not `1 * 1 * 2`. -/
theorem cancelled_recording_writes_whole_buffer :
    (SpeakerManager.idle.recordAudio 2100 8000 true (fun _ => 0) 0 [⟨0, 0, 1234, false⟩]).map
        (fun res => (res.exit, res.loopState.sampleIndex,
          res.sm.wavfileWriter.map (fun w => (w.m_samplesWritten, w.m_header.dlength))))
      = Except.ok (LoopExit.stopButton, 1, some (16000, 32000)) := by
  have hbs : bufferSize 2100 8000 = 16000 := by decide
  have hloop : recordAudioLoop 2100 8000 (fun _ => 0) 0 [⟨0, 0, 1234, false⟩]
      = ((recordAudioLoop 2100 8000 (fun _ => 0) 0 [⟨0, 0, 1234, false⟩]).1,
          LoopExit.stopButton) := by
    apply Prod.ext
    · rfl
    · decide
  have hidx : (recordAudioLoop 2100 8000 (fun _ => 0) 0 [⟨0, 0, 1234, false⟩]).1.sampleIndex
      = 1 := by decide
  have hlen := recordAudioLoop_buffer_length 2100 8000 (fun _ => 0) 0 [⟨0, 0, 1234, false⟩]
  rw [hbs] at hlen
  rw [recordAudio_ok SpeakerManager.idle 2100 8000 true (fun _ => 0) 0 [⟨0, 0, 1234, false⟩]
    _ LoopExit.stopButton (by rw [hbs]; decide) (by decide) hloop (by decide)]
  have hflen : (((recordAudioLoop 2100 8000 (fun _ => 0) 0
      [⟨0, 0, 1234, false⟩]).1.buffer.map (fun v => (v, v))).length : Int) = 16000 := by
    rw [List.length_map, hlen]; rfl
  have hT : int32 (8000 * cdiv 2100 1000) = 16000 := by decide
  have hcnt := writeFrames_count
    ((recordAudioLoop 2100 8000 (fun _ => 0) 0 [⟨0, 0, 1234, false⟩]).1.buffer.map
      (fun v => (v, v)))
    (WAVFileWriter.new true CHANNEL 8000 (cdiv 2100 1000))
    (by simp [WAVFileWriter.new])
    (by
      show (0 : Int) + _ ≤ int32 (8000 * cdiv 2100 1000)
      rw [hflen, hT]; decide)
    (by
      show (0 : Int) + _ ≤ 32767
      rw [hflen]; decide)
  have hw : ((WAVFileWriter.new true CHANNEL 8000 (cdiv 2100 1000)).writeFrames
      ((recordAudioLoop 2100 8000 (fun _ => 0) 0 [⟨0, 0, 1234, false⟩]).1.buffer.map
        (fun v => (v, v)))).m_samplesWritten = 16000 := by
    rw [hcnt.1, hflen]; rfl
  have hc : ((WAVFileWriter.new true CHANNEL 8000 (cdiv 2100 1000)).writeFrames
      ((recordAudioLoop 2100 8000 (fun _ => 0) 0 [⟨0, 0, 1234, false⟩]).1.buffer.map
        (fun v => (v, v)))).m_channels = 1 := by
    rw [hcnt.2.2.1]; rfl
  have hv : int32 (int32 (16000 * 1) * 2) = 32000 := by decide
  simp only [Except.map, Option.map]
  rw [hidx, close_dlength, close_samplesWritten, hw, hc, hv]

/-! ## The uncancelled sample count -/

theorem ulongSub_of_le (a b : Nat) (hb : b ≤ a) (ha : a < 4294967296) : ulongSub a b = a - b := by
  unfold ulongSub ulong
  omega

/-- A loop polled every period and left by the time condition has filled the
buffer, provided the buffer's worth of periods fits the time limit. -/
theorem recordLoop_timeUp_count (bs : Int) (s L I : Nat) (hL : bs.toNat * I ≤ L) (hbs : 0 ≤ bs) :
    ∀ (obs : List LoopObs) (prev : Nat) (st : RecState) (j : Nat),
      st.nextSampleTime = s + j * I →
      ((j : Int) < bs ∧ st.sampleIndex = j) ∨ (bs ≤ j ∧ st.sampleIndex = bs) →
      s ≤ prev → prev ≤ st.nextSampleTime →
      polledEveryPeriod I prev obs = true →
      (recordLoop bs s L I obs st).2 = LoopExit.timeUp →
      (recordLoop bs s L I obs st).1.sampleIndex = bs := by
  intro obs
  induction obs with
  | nil =>
    intro prev st j _ _ _ _ _ hexit
    simp [recordLoop] at hexit
  | cons o rest ih =>
    intro prev st j hnext hidx hs hprev hpoll hexit
    simp only [polledEveryPeriod, Bool.and_eq_true, decide_eq_true_eq] at hpoll
    obtain ⟨⟨⟨⟨hp1, hp2⟩, hp3⟩, hp4⟩, hrest⟩ := hpoll
    have hsub : ulongSub o.tCond s = o.tCond - s := ulongSub_of_le _ _ (by omega) (by omega)
    have hsucc : (j + 1) * I = j * I + I := by ring
    unfold recordLoop at hexit ⊢
    by_cases hc : ulongSub o.tCond s < L
    · rw [if_pos hc] at hexit ⊢
      cases hb : o.button with
      | false => simp [hb] at hexit
      | true =>
        simp only [hb, Bool.not_true, Bool.false_eq_true, if_false] at hexit ⊢
        have hu : ulong o.tDue = o.tDue := by unfold ulong; omega
        by_cases hdue : o.tDue ≥ st.nextSampleTime
        ·
          by_cases hroom : st.sampleIndex < bs
          · have hst : dueStep bs I o.tDue o.mic st
                = { buffer := st.buffer.set st.sampleIndex.toNat (int16 o.mic)
                    sampleIndex := st.sampleIndex + 1
                    nextSampleTime := ulong (st.nextSampleTime + I)
                    stores := st.stores ++ [st.sampleIndex] } := by
              simp [dueStep, hu, hdue, hroom]
            rw [hst] at hexit ⊢
            have hn : ulong (st.nextSampleTime + I) = st.nextSampleTime + I := by
              unfold ulong; omega
            exact ih o.tDue _ (j + 1) (by simp only [hn]; omega)
              (by simp only [Nat.cast_add, Nat.cast_one]; omega) (by omega)
              (by simp only [hn]; omega) hrest hexit
          · have hst : dueStep bs I o.tDue o.mic st
                = { st with nextSampleTime := ulong (st.nextSampleTime + I) } := by
              simp [dueStep, hu, hdue, hroom]
            rw [hst] at hexit ⊢
            have hn : ulong (st.nextSampleTime + I) = st.nextSampleTime + I := by
              unfold ulong; omega
            exact ih o.tDue _ (j + 1) (by simp only [hn]; omega)
              (by simp only [Nat.cast_add, Nat.cast_one]; omega) (by omega)
              (by simp only [hn]; omega) hrest hexit
        · have hst : dueStep bs I o.tDue o.mic st = st := by
            simp [dueStep, hu, hdue]
          rw [hst] at hexit ⊢
          exact ih o.tDue st j hnext hidx (by omega) (by omega) hrest hexit
    · rw [if_neg hc]
      show st.sampleIndex = bs
      rcases hidx with ⟨hj, _⟩ | ⟨_, h⟩
      · exfalso
        have h1 : j + 1 ≤ bs.toNat := by omega
        have h2 := Nat.mul_le_mul_right I h1
        omega
      · exact h

/-- At most a million samples a second leave a sampling period of at least
one microsecond; faster rates give the period 0. -/
theorem sampleInterval_pos_imp (R : Int) (h : 0 < sampleInterval R) :
    R ≤ 1000000 := by
  by_contra hgt
  have h0 : (1000000 : Int) / R = 0 := Int.ediv_eq_zero_of_lt (by decide) (by omega)
  unfold sampleInterval at h
  rw [cdiv_of_nonneg _ _ (by decide) (by omega), h0] at h
  simp [uint32] at h

/-- C8, as amended: for a recording at rate `R > 0` requested for `D >= 0`
milliseconds (with `D * 1000` inside the `int` range) that is left by the time
condition (never cancelled) and whose loop reads the clock less than one
sampling period after the previous due test, the number of samples acquired is
exactly the buffer size `R * (D / 1000)` (whole seconds, integer division);
it lies in `(R * D / 1000 - R, R * D / 1000]`. -/
theorem uncancelled_sample_count (D R : Int) (hR : 0 < R) (hD : 0 ≤ D)
    (hDfit : D * 1000 ≤ 2147483647) (heap : Nat → Int) (start : Nat) (obs : List LoopObs)
    (hstart : start < 4294967296)
    (hpoll : polledEveryPeriod (sampleInterval R) start obs = true)
    (hexit : (recordAudioLoop D R heap start obs).2 = LoopExit.timeUp) :
    (recordAudioLoop D R heap start obs).1.sampleIndex = R * (D / 1000)
      ∧ R * D - R * 1000 < 1000 * (recordAudioLoop D R heap start obs).1.sampleIndex
      ∧ 1000 * (recordAudioLoop D R heap start obs).1.sampleIndex ≤ R * D := by
  have hus : ulong start = start := by unfold ulong; omega
  -- the loop ran over at least one observation, so the period is positive
  have hIpos : 0 < sampleInterval R := by
    cases obs with
    | nil => simp [recordAudioLoop, recordLoop] at hexit
    | cons o rest =>
      simp only [polledEveryPeriod, Bool.and_eq_true, decide_eq_true_eq] at hpoll
      omega
  have hRmax := sampleInterval_pos_imp R hIpos
  have hq0 : 0 ≤ D / 1000 := Int.ediv_nonneg hD (by decide)
  have hqmax : D / 1000 ≤ 2147 := by omega
  have hx0 : 0 ≤ R * (D / 1000) := Int.mul_nonneg (Int.le_of_lt hR) hq0
  have hxmax : R * (D / 1000) ≤ 1000000 * 2147 :=
    Int.mul_le_mul hRmax hqmax hq0 (by decide)
  have hbs : bufferSize D R = R * (D / 1000) := by
    unfold bufferSize
    rw [cdiv_of_nonneg D 1000 hD (by decide)]
    exact int32_of_range _ (by unfold InInt32; omega)
  have hI : ((sampleInterval R : Nat) : Int) = 1000000 / R := by
    unfold sampleInterval uint32
    rw [cdiv_of_nonneg _ _ (by decide) (by omega)]
    have h1 : (0 : Int) ≤ 1000000 / R := Int.ediv_nonneg (by decide) (by omega)
    have h2 : (1000000 : Int) / R ≤ 1000000 := Int.ediv_le_self R (by decide)
    rw [Int.emod_eq_of_lt h1 (by omega)]
    exact Int.toNat_of_nonneg h1
  have hLim : ((loopLimit D : Nat) : Int) = D * 1000 := by
    unfold loopLimit uint32
    rw [int32_of_range _ (by unfold InInt32; omega), Int.emod_eq_of_lt (by omega) (by omega)]
    exact Int.toNat_of_nonneg (by omega)
  have hRI : R * (1000000 / R) ≤ 1000000 := Int.mul_ediv_self_le (by omega)
  have hL : (bufferSize D R).toNat * sampleInterval R ≤ loopLimit D := by
    have hcast : (((bufferSize D R).toNat * sampleInterval R : Nat) : Int)
        ≤ ((loopLimit D : Nat) : Int) := by
      rw [Nat.cast_mul, hI, hLim, Int.toNat_of_nonneg (by rw [hbs]; exact hx0), hbs]
      have e : R * (D / 1000) * (1000000 / R) = (D / 1000) * (R * (1000000 / R)) := by ring
      rw [e]
      have := Int.mul_le_mul_of_nonneg_left hRI hq0
      omega
    exact_mod_cast hcast
  have hcount : (recordAudioLoop D R heap start obs).1.sampleIndex = bufferSize D R := by
    unfold recordAudioLoop at hexit ⊢
    rw [hus] at hexit ⊢
    exact recordLoop_timeUp_count (bufferSize D R) start (loopLimit D) (sampleInterval R) hL
      (by rw [hbs]; exact hx0) obs start _ 0 (by simp)
      (by
        by_cases h0 : (0 : Int) < bufferSize D R
        · exact Or.inl ⟨by simpa using h0, by simp⟩
        · refine Or.inr ⟨by simp; omega, ?_⟩
          show (0 : Int) = bufferSize D R
          rw [hbs] at h0 ⊢
          omega)
      (Nat.le_refl _) (Nat.le_refl _) hpoll hexit
  obtain ⟨_, _, hb3⟩ := bufferSize_le D R hR hD
  have hmod : R * (D - 1000 * (D / 1000)) < R * 1000 :=
    Int.mul_lt_mul_of_pos_left (by omega) hR
  have e2 : R * (D - 1000 * (D / 1000)) = R * D - 1000 * (R * (D / 1000)) := by ring
  rw [hcount, hbs]
  refine ⟨rfl, by omega, hb3⟩

set_option maxRecDepth 100000 in
/-- Witness of C8: 20 Hz for 2100 ms, polled every half period and never
cancelled, acquires 20 * (2100 / 1000) = 40 samples. -/
theorem uncancelled_sample_count_witness :
    (recordAudioLoop 2100 20 (fun _ => 0) 0 halfPeriodTrace).1.sampleIndex = 20 * (2100 / 1000) :=
  (uncancelled_sample_count 2100 20 (by decide) (by decide) (by decide) (fun _ => 0) 0
    halfPeriodTrace (by decide) (by decide) (by decide)).1

set_option maxRecDepth 100000 in
/-- C8 as stated fails: a 2100 ms recording at 20 Hz, polled every half
period and left by the time condition, acquires 40 samples, which is not in
`(R * D / 1000 - 1, R * D / 1000] = (41, 42]`. -/
theorem uncancelled_count_is_buffer_size :
    polledEveryPeriod (sampleInterval 20) 0 halfPeriodTrace = true
    ∧ (recordAudioLoop 2100 20 (fun _ => 0) 0 halfPeriodTrace).2 = LoopExit.timeUp
    ∧ ¬ ((20 : Int) * 2100 / 1000 - 1
          < (recordAudioLoop 2100 20 (fun _ => 0) 0 halfPeriodTrace).1.sampleIndex
        ∧ (recordAudioLoop 2100 20 (fun _ => 0) 0 halfPeriodTrace).1.sampleIndex
          ≤ (20 : Int) * 2100 / 1000) := by
  decide

/-! ## Playback: no sample lost or repeated across pause and resume -/

theorem samplesFrom_of_ge (dataSize pos : Int) (bs : List Nat) (h : pos ≥ dataSize) :
    samplesFrom dataSize pos bs = [] := by
  match bs with
  | [] => simp [samplesFrom]
  | [_] => simp [samplesFrom]
  | b0 :: b1 :: rest => simp [samplesFrom, h]

theorem samplesFrom_length (dataSize : Int) :
    ∀ (bs : List Nat) (pos : Int), 2 * (samplesFrom dataSize pos bs).length ≤ bs.length
  | [], pos => by simp [samplesFrom]
  | [_], pos => by simp [samplesFrom]
  | b0 :: b1 :: rest, pos => by
    have ih := samplesFrom_length dataSize rest (int32 (pos + 2))
    unfold samplesFrom
    split
    · simp
    · simp only [List.length_cons]
      omega

/-- A successful `readSample` delivers the first pending sample. -/
theorem readSample_some (r : WAVFileReader) (v : Int) (h : r.readSample.1 = some v) :
    r.pending = v :: r.readSample.2.pending := by
  unfold WAVFileReader.readSample at h ⊢
  by_cases hge : r.m_currentPos ≥ r.m_dataSize
  · simp [hge] at h
  · simp only [hge, if_false] at h ⊢
    by_cases ho : r.m_file.isOpen = true
    · simp only [File.read, ho, if_true] at h ⊢
      unfold WAVFileReader.pending
      simp only [ho, if_true]
      match hd : r.m_file.bytes.drop r.m_file.pos with
      | [] => simp [hd] at h
      | [_] => simp [hd] at h
      | b0 :: b1 :: rest =>
        simp only [hd, List.take_succ_cons, List.take_zero, List.length_cons, List.length_nil,
          ne_eq, not_true_eq_false, if_false, Option.some.injEq] at h ⊢
        have hrest : r.m_file.bytes.drop (r.m_file.pos + 2) = rest := by
          rw [← List.drop_drop, hd]; rfl
        simp [samplesFrom, hge, h, hrest]
    · simp [File.read, ho] at h

/-- A failing `readSample` means that no sample is pending. -/
theorem readSample_none (r : WAVFileReader) (h : r.readSample.1 = none) : r.pending = [] := by
  unfold WAVFileReader.pending
  by_cases ho : r.m_file.isOpen = true
  · simp only [ho, if_true]
    by_cases hge : r.m_currentPos ≥ r.m_dataSize
    · exact samplesFrom_of_ge _ _ _ hge
    · unfold WAVFileReader.readSample at h
      simp only [hge, if_false, File.read, ho, if_true] at h
      match hd : r.m_file.bytes.drop r.m_file.pos with
      | [] => simp [samplesFrom]
      | [_] => simp [samplesFrom]
      | b0 :: b1 :: rest => simp [hd] at h
  · simp [ho]

/-- A call of `readSample` touches neither the output, the state nor the task handle. -/
theorem readSample_frame (r : WAVFileReader) :
    r.readSample.2.m_i2sOutput = r.m_i2sOutput
      ∧ r.readSample.2.m_playbackState = r.m_playbackState
      ∧ r.readSample.2.xPlaybackTask = r.xPlaybackTask := by
  unfold WAVFileReader.readSample
  by_cases hge : r.m_currentPos ≥ r.m_dataSize
  · simp [hge]
  · by_cases hl : (r.m_file.read 2).1.length = 2 <;> simp [hge, hl]

theorem pending_congr (r r1 : WAVFileReader) (hf : r1.m_file = r.m_file)
    (hd : r1.m_dataSize = r.m_dataSize) (hp : r1.m_currentPos = r.m_currentPos) :
    r1.pending = r.pending := by
  unfold WAVFileReader.pending
  rw [hf, hd, hp]

theorem playInv_step (total : List Int) (s : Playback) (e : PlayEvent) (h : PlayInv total s) :
    PlayInv total (s.step e) := by
  obtain ⟨m, hm, ha, hd⟩ := h
  cases e with
  | pause =>
    unfold Playback.step WAVFileReader.pausePlayback
    by_cases hp : s.reader.m_playbackState = PlaybackState.PLAYING
    · refine ⟨m, by simp [hp, hm], ?_, ?_⟩
      · intro hal
        obtain ⟨_, h2, h3⟩ := ha hal
        refine ⟨by simp [hp], h2, ?_⟩
        rw [← h3]
        congr 1
        simp only [hp, if_true]
        exact pending_congr _ _ rfl rfl rfl
      · intro hal
        have := (hd hal).1
        rw [hp] at this
        exact absurd this (by decide)
    · simp only [hp, if_false]
      exact ⟨m, hm, ha, hd⟩
  | resume =>
    unfold Playback.step WAVFileReader.resumePlayback
    by_cases hp : s.reader.m_playbackState = PlaybackState.PAUSED
    · refine ⟨m, by simp [hp, hm], ?_, ?_⟩
      · intro hal
        obtain ⟨_, h2, h3⟩ := ha hal
        refine ⟨by simp [hp], h2, ?_⟩
        rw [← h3]
        congr 1
        simp only [hp, if_true]
        exact pending_congr _ _ rfl rfl rfl
      · intro hal
        have := (hd hal).1
        rw [hp] at this
        exact absurd this (by decide)
    · simp only [hp, if_false]
      exact ⟨m, hm, ha, hd⟩
  | taskStep =>
    unfold Playback.step
    by_cases hal : s.taskAlive = true
    · obtain ⟨h1, h2, h3⟩ := ha hal
      simp only [hal, if_true]
      unfold playbackTaskStep
      obtain ⟨hf1, hf2, hf3⟩ := readSample_frame s.reader
      cases hst : s.reader.m_playbackState with
      | STOPPED => exact absurd hst h1
      | PAUSED =>
        refine ⟨m, hm, ?_, ?_⟩
        · intro _
          refine ⟨by simp [hst], h2, ?_⟩
          rw [← h3]
          congr 1
        · intro hcontra
          simp at hcontra
      | PLAYING =>
        cases hrd : s.reader.readSample with
        | mk res r1 =>
          have hr1 : s.reader.readSample.2 = r1 := by rw [hrd]
          have hres : s.reader.readSample.1 = res := by rw [hrd]
          rw [hr1] at hf1 hf2 hf3
          cases res with
          | some v =>
            have hpend := readSample_some s.reader v hres
            rw [hr1] at hpend
            refine ⟨m.writeSample v, by simp [hf1, hm], ?_, ?_⟩
            · intro _
              refine ⟨by simp [hf2, hst], by simp [I2SManager.writeSample, h2], ?_⟩
              have hp2 : WAVFileReader.pending
                  { r1 with m_i2sOutput := r1.m_i2sOutput.map (fun m => m.writeSample v) }
                  = r1.pending := pending_congr _ _ rfl rfl rfl
              rw [hp2, ← h3, hpend]
              simp [I2SManager.writeSample, h2]
            · intro hcontra
              simp at hcontra
          | none =>
            have hpend := readSample_none s.reader hres
            have hne : r1.m_playbackState ≠ PlaybackState.STOPPED := by
              rw [hf2, hst]; decide
            rw [hpend, List.append_nil] at h3
            by_cases htask : r1.xPlaybackTask = true
            · refine ⟨m, by simp [WAVFileReader.stopPlaybackInTask, hne, htask, hf1, hm], ?_, ?_⟩
              · intro hcontra
                simp at hcontra
              · intro _
                exact ⟨by simp [WAVFileReader.stopPlaybackInTask, hne, htask], h3⟩
            · refine ⟨m.stop, by simp [WAVFileReader.stopPlaybackInTask, hne, htask, hf1, hm],
                ?_, ?_⟩
              · intro hcontra
                simp at hcontra
              · intro _
                exact ⟨by simp [WAVFileReader.stopPlaybackInTask, hne, htask],
                  by simp [I2SManager.stop, h2, h3]⟩
    · simp only [hal]
      exact ⟨m, hm, ha, hd⟩

theorem playInv_run (total : List Int) (evs : List PlayEvent) :
    ∀ s : Playback, PlayInv total s → PlayInv total (s.run evs) := by
  induction evs with
  | nil => intro s h; exact h
  | cons e rest ih =>
    intro s h
    exact ih _ (playInv_step total s e h)

theorem run_cons (s : Playback) (e : PlayEvent) (evs : List PlayEvent) :
    s.run (e :: evs) = (s.step e).run evs := rfl

/-- Once the task has ended, task iterations change nothing. -/
theorem run_taskSteps_dead (n : Nat) (s : Playback) (h : s.taskAlive = false) :
    s.run (List.replicate n PlayEvent.taskStep) = s := by
  induction n with
  | zero => rfl
  | succ k ih =>
    rw [List.replicate_succ, run_cons]
    have : s.step PlayEvent.taskStep = s := by simp [Playback.step, h]
    rw [this, ih]

/-- A playing reader left alone ends its task within one iteration more than
the number of pending samples. -/
theorem run_taskSteps_ends (n : Nat) :
    ∀ s : Playback, (s.taskAlive = true → s.reader.m_playbackState = PlaybackState.PLAYING) →
      s.reader.pending.length < n →
      (s.run (List.replicate n PlayEvent.taskStep)).taskAlive = false := by
  induction n with
  | zero => intro s _ h; omega
  | succ k ih =>
    intro s hplay hlen
    rw [List.replicate_succ, run_cons]
    by_cases hal : s.taskAlive = true
    · have hst := hplay hal
      obtain ⟨_, hf2, _⟩ := readSample_frame s.reader
      cases hrd : s.reader.readSample with
      | mk res r1 =>
        have hr1 : s.reader.readSample.2 = r1 := by rw [hrd]
        have hres : s.reader.readSample.1 = res := by rw [hrd]
        rw [hr1] at hf2
        cases res with
        | some v =>
          have hpend := readSample_some s.reader v hres
          rw [hr1] at hpend
          have hstep : s.step PlayEvent.taskStep
              = ⟨{ r1 with m_i2sOutput := r1.m_i2sOutput.map (fun m => m.writeSample v) },
                  true⟩ := by
            simp [Playback.step, hal, playbackTaskStep, hst, hrd]
          rw [hstep]
          apply ih
          · intro _
            show r1.m_playbackState = PlaybackState.PLAYING
            rw [hf2, hst]
          · have hp2 : WAVFileReader.pending
                { r1 with m_i2sOutput := r1.m_i2sOutput.map (fun m => m.writeSample v) }
                = r1.pending := pending_congr _ _ rfl rfl rfl
            show (WAVFileReader.pending
              { r1 with m_i2sOutput := r1.m_i2sOutput.map (fun m => m.writeSample v) }).length < k
            rw [hp2]
            rw [hpend, List.length_cons] at hlen
            omega
        | none =>
          have hstep : s.step PlayEvent.taskStep = ⟨r1.stopPlaybackInTask, false⟩ := by
            simp [Playback.step, hal, playbackTaskStep, hst, hrd]
          rw [hstep, run_taskSteps_dead k _ rfl]
    · have hdead : s.taskAlive = false := by simpa using hal
      have : s.step PlayEvent.taskStep = s := by simp [Playback.step, hdead]
      rw [this, run_taskSteps_dead k s hdead]
      exact hdead

/-- The session set up on a file of at least 44 bytes is playing, its task
exists, nothing has been written and the whole data region is pending. -/
theorem ofFile_start (mem : WAVFileReader) (bs : List Nat) (hlen : 44 ≤ bs.length) :
    (Playback.ofFile mem bs).taskAlive = true
      ∧ (Playback.ofFile mem bs).reader.m_playbackState = PlaybackState.PLAYING
      ∧ (Playback.ofFile mem bs).reader.pending.length < bs.length
      ∧ PlayInv (Playback.ofFile mem bs).reader.pending (Playback.ofFile mem bs) := by
  have hl : min 44 bs.length = 44 := by omega
  have hopen : ((WAVFileReader.new mem (some bs)).open).2
      = { WAVFileReader.new mem (some bs) with
          m_file := ⟨true, bs, 44⟩
          m_header := parseHeader (bs.take 44)
          m_dataSize := (parseHeader (bs.take 44)).dlength
          m_currentPos := 0
          m_i2sOutput := some (I2SManager.new (parseHeader (bs.take 44)).srate).begin } := by
    simp [WAVFileReader.open, WAVFileReader.new, File.openRead, File.read, sizeof_header, hl]
  have hstate : ((WAVFileReader.new mem (some bs)).open).2.m_playbackState
      = PlaybackState.STOPPED := by
    rw [hopen]; rfl
  have hreader : (Playback.ofFile mem bs).reader
      = { ((WAVFileReader.new mem (some bs)).open).2 with
          m_playbackState := PlaybackState.PLAYING, xPlaybackTask := true } := by
    simp only [Playback.ofFile, Playback.start, WAVFileReader.startPlayback, hstate, if_true]
  have hpend : (Playback.ofFile mem bs).reader.pending
      = samplesFrom (parseHeader (bs.take 44)).dlength 0 (bs.drop 44) := by
    have hc : (Playback.ofFile mem bs).reader.pending
        = ((WAVFileReader.new mem (some bs)).open).2.pending := by
      rw [hreader]
      exact pending_congr _ _ rfl rfl rfl
    rw [hc, hopen]
    simp [WAVFileReader.pending]
  have hi2s : (Playback.ofFile mem bs).reader.m_i2sOutput
      = some (I2SManager.new (parseHeader (bs.take 44)).srate).begin := by
    rw [hreader]
    show ((WAVFileReader.new mem (some bs)).open).2.m_i2sOutput = _
    rw [hopen]
  have halive : (Playback.ofFile mem bs).taskAlive = true := by
    simp [Playback.ofFile, Playback.start, hstate]
  have hplaying : (Playback.ofFile mem bs).reader.m_playbackState = PlaybackState.PLAYING := by
    rw [hreader]
  have hpl : (Playback.ofFile mem bs).reader.pending.length < bs.length := by
    have h1 := samplesFrom_length (parseHeader (bs.take 44)).dlength (bs.drop 44) 0
    have h2 : (bs.drop 44).length = bs.length - 44 := List.length_drop 44 bs
    rw [hpend]
    omega
  refine ⟨halive, hplaying, hpl, (I2SManager.new (parseHeader (bs.take 44)).srate).begin,
    hi2s, ?_, ?_⟩
  · intro _
    refine ⟨by rw [hplaying]; decide, rfl, ?_⟩
    simp [I2SManager.new, I2SManager.begin]
  · intro hcontra
    rw [halive] at hcontra
    exact absurd hcontra (by decide)

/-- The output of a state that satisfies the run invariant and whose task has ended. -/
theorem playInv_output_dead (total : List Int) (s : Playback) (h : PlayInv total s)
    (hd : s.taskAlive = false) : s.reader.output = total := by
  obtain ⟨m, hm, _, hdead⟩ := h
  simp [WAVFileReader.output, hm, (hdead hd).2]

/-- The output of a state that satisfies the run invariant is a leading part of `total`. -/
theorem playInv_output_leading (total : List Int) (s : Playback) (h : PlayInv total s) :
    ∃ rest, s.reader.output ++ rest = total := by
  obtain ⟨m, hm, halive, hdead⟩ := h
  by_cases hal : s.taskAlive = true
  · exact ⟨s.reader.pending, by simp [WAVFileReader.output, hm, (halive hal).2.2]⟩
  · exact ⟨[], by simp [WAVFileReader.output, hm, (hdead (by simpa using hal)).2]⟩

/-- C6: for every stored file of at least 44 bytes (any data region) and every
interleaving `evs` of `pausePlayback` / `resumePlayback` calls with iterations
of the playback task, the samples written to the I2S output are a leading part
of the sequence the uninterrupted run writes, and once the task has reached
the end of the data they are exactly that sequence; the uninterrupted run
itself reaches the end of the data and writes the whole data region. -/
theorem no_sample_loss_across_pause_resume (mem : WAVFileReader) (bs : List Nat)
    (hlen : 44 ≤ bs.length) (evs : List PlayEvent) :
    ((Playback.ofFile mem bs).uninterrupted bs.length).taskAlive = false
    ∧ ((Playback.ofFile mem bs).uninterrupted bs.length).reader.output
        = (Playback.ofFile mem bs).reader.pending
    ∧ (∃ rest, ((Playback.ofFile mem bs).run evs).reader.output ++ rest
        = ((Playback.ofFile mem bs).uninterrupted bs.length).reader.output)
    ∧ (((Playback.ofFile mem bs).run evs).taskAlive = false →
        ((Playback.ofFile mem bs).run evs).reader.output
          = ((Playback.ofFile mem bs).uninterrupted bs.length).reader.output) := by
  obtain ⟨hal, hst, hpl, hinv⟩ := ofFile_start mem bs hlen
  have hend : ((Playback.ofFile mem bs).uninterrupted bs.length).taskAlive = false :=
    run_taskSteps_ends bs.length _ (fun _ => hst) hpl
  have href : ((Playback.ofFile mem bs).uninterrupted bs.length).reader.output
      = (Playback.ofFile mem bs).reader.pending :=
    playInv_output_dead _ _ (playInv_run _ _ _ hinv) hend
  have hrun := playInv_run _ evs _ hinv
  refine ⟨hend, href, ?_, ?_⟩
  · rw [href]
    exact playInv_output_leading _ _ hrun
  · intro hdead
    rw [href]
    exact playInv_output_dead _ _ hrun hdead

/-- Witness of C6: on a file holding the samples 1 and 2, a run with a pause
after the first sample, two task iterations while paused and a resume writes
1, 2 like the uninterrupted run. -/
theorem no_sample_loss_across_pause_resume_witness :
    ((Playback.ofFile WAVFileReader.blank twoSampleFile).run
        [PlayEvent.taskStep, PlayEvent.pause, PlayEvent.taskStep, PlayEvent.taskStep,
          PlayEvent.resume, PlayEvent.taskStep, PlayEvent.taskStep]).reader.output
      = ((Playback.ofFile WAVFileReader.blank twoSampleFile).uninterrupted
          twoSampleFile.length).reader.output :=
  (no_sample_loss_across_pause_resume WAVFileReader.blank twoSampleFile (by decide)
    [PlayEvent.taskStep, PlayEvent.pause, PlayEvent.taskStep, PlayEvent.taskStep,
      PlayEvent.resume, PlayEvent.taskStep, PlayEvent.taskStep]).2.2.2 (by decide)

/-! ## Opening a file and the playback state machine -/

/-- C5: `startPlayback` maps STOPPED to PLAYING and leaves PLAYING and PAUSED
unchanged; `pausePlayback` maps PLAYING to PAUSED and leaves STOPPED and
PAUSED unchanged; `resumePlayback` maps PAUSED to PLAYING and leaves STOPPED
and PLAYING unchanged; `stopPlayback` maps every state to STOPPED. These are
all the state changes of the four operations. -/
theorem state_machine_legality (r : WAVFileReader) :
    r.startPlayback.m_playbackState
        = (match r.m_playbackState with
          | PlaybackState.STOPPED => PlaybackState.PLAYING
          | PlaybackState.PLAYING => PlaybackState.PLAYING
          | PlaybackState.PAUSED => PlaybackState.PAUSED)
    ∧ r.pausePlayback.m_playbackState
        = (match r.m_playbackState with
          | PlaybackState.STOPPED => PlaybackState.STOPPED
          | PlaybackState.PLAYING => PlaybackState.PAUSED
          | PlaybackState.PAUSED => PlaybackState.PAUSED)
    ∧ r.resumePlayback.m_playbackState
        = (match r.m_playbackState with
          | PlaybackState.STOPPED => PlaybackState.STOPPED
          | PlaybackState.PLAYING => PlaybackState.PLAYING
          | PlaybackState.PAUSED => PlaybackState.PLAYING)
    ∧ r.stopPlayback.m_playbackState
        = (match r.m_playbackState with
          | PlaybackState.STOPPED => PlaybackState.STOPPED
          | PlaybackState.PLAYING => PlaybackState.STOPPED
          | PlaybackState.PAUSED => PlaybackState.STOPPED)
    ∧ r.stopPlaybackInTask.m_playbackState = r.stopPlayback.m_playbackState := by
  unfold WAVFileReader.startPlayback WAVFileReader.pausePlayback WAVFileReader.resumePlayback
    WAVFileReader.stopPlayback WAVFileReader.stopPlaybackInTask
  cases h : r.m_playbackState <;> cases ht : r.xPlaybackTask <;> simp [h]

/-! ## Closing twice, truncated headers, stopping -/

/-- A second `close` changes nothing: the handle is already closed and the
lengths are recomputed from the same counter and channel count. -/
theorem close_close (w : WAVFileWriter) : w.close.close = w.close := by
  cases hf : w.m_file.isOpen <;>
    simp [WAVFileWriter.close, File.close, File.seek, File.write, hf]

/-- C11: for every writer state, the header left by calling `close()` twice in
a row is byte-identical to the header left by calling `close()` once (and so
is the file content). -/
theorem finalize_idempotence (w : WAVFileWriter) :
    headerBytes w.close.close.m_header = headerBytes w.close.m_header
      ∧ w.close.close.m_header = w.close.m_header
      ∧ w.close.close.m_file.bytes = w.close.m_file.bytes := by
  rw [close_close]
  exact ⟨rfl, rfl, rfl⟩

/-- C12: for every reader (in state STOPPED or any other) whose file could not
be opened or yields fewer than 44 bytes, `WAVFileReader::open` returns false
and leaves the data size, the read offset and the playback state unchanged. -/
theorem open_truncated_header (r : WAVFileReader)
    (h : r.m_file.isOpen = false ∨ (r.m_file.read sizeof_header).1.length < 44) :
    r.open.1 = false
      ∧ r.open.2.m_dataSize = r.m_dataSize
      ∧ r.open.2.m_currentPos = r.m_currentPos
      ∧ r.open.2.m_playbackState = r.m_playbackState := by
  unfold WAVFileReader.open
  cases ho : r.m_file.isOpen with
  | false => simp
  | true =>
    have hlt : (r.m_file.read sizeof_header).1.length < 44 := by
      rcases h with h | h
      · rw [ho] at h; exact absurd h (by decide)
      · exact h
    have hne : (r.m_file.read sizeof_header).1.length ≠ sizeof_header := by
      unfold sizeof_header at hlt ⊢
      omega
    simp [hne]

/-- Witness of C12: a reader in state STOPPED on a stored file of three bytes. -/
theorem open_truncated_header_witness :
    (WAVFileReader.new WAVFileReader.blank (some [1, 2, 3])).m_playbackState
        = PlaybackState.STOPPED
      ∧ (WAVFileReader.new WAVFileReader.blank (some [1, 2, 3])).open.1 = false
      ∧ (WAVFileReader.new WAVFileReader.blank (some [1, 2, 3])).open.2.m_playbackState
        = PlaybackState.STOPPED :=
  have h := open_truncated_header (WAVFileReader.new WAVFileReader.blank (some [1, 2, 3]))
    (Or.inr (by decide))
  ⟨rfl, h.1, h.2.2.2⟩

/-- C13, as amended: for every reader state, after `stopPlayback` the state is
STOPPED; the read offset is 0 when the state before was PLAYING or PAUSED and
is unchanged when the state before was already STOPPED. -/
theorem stop_from_any_state (r : WAVFileReader) :
    r.stopPlayback.m_playbackState = PlaybackState.STOPPED
      ∧ (r.m_playbackState ≠ PlaybackState.STOPPED → r.stopPlayback.m_currentPos = 0)
      ∧ (r.m_playbackState = PlaybackState.STOPPED →
          r.stopPlayback.m_currentPos = r.m_currentPos) := by
  unfold WAVFileReader.stopPlayback
  cases h : r.m_playbackState <;> simp [h]

/-- C13 as stated fails: a reader opened on a file with two samples and still
STOPPED, whose offset the public `readSample` has advanced to 2, keeps the
offset 2 after `stopPlayback`. -/
theorem stop_keeps_offset_when_stopped :
    ((WAVFileReader.new WAVFileReader.blank (some twoSampleFile)).open.2.readSample.2).m_playbackState
        = PlaybackState.STOPPED
      ∧ ((WAVFileReader.new WAVFileReader.blank (some twoSampleFile)).open.2.readSample.2).m_currentPos
        = 2
      ∧ ¬ (((WAVFileReader.new WAVFileReader.blank
            (some twoSampleFile)).open.2.readSample.2).stopPlayback.m_currentPos = 0) := by
  decide

/-- C14: for every reader whose state is STOPPED, `stopPlayback` changes no
field of the reader, so `stopPlayback` followed by `stopPlayback` equals a
single `stopPlayback`. -/
theorem stop_when_stopped_is_noop (r : WAVFileReader)
    (h : r.m_playbackState = PlaybackState.STOPPED) :
    r.stopPlayback = r ∧ r.stopPlayback.stopPlayback = r.stopPlayback := by
  have h1 : r.stopPlayback = r := by simp [WAVFileReader.stopPlayback, h]
  rw [h1]
  exact ⟨rfl, h1⟩

/-- Witness of C14: a freshly constructed reader. -/
theorem stop_when_stopped_is_noop_witness :
    (WAVFileReader.new WAVFileReader.blank (some twoSampleFile)).stopPlayback
      = WAVFileReader.new WAVFileReader.blank (some twoSampleFile) :=
  (stop_when_stopped_is_noop (WAVFileReader.new WAVFileReader.blank (some twoSampleFile)) rfl).1

/-! ## The end of the data, seen from the playback task -/

/-- C15, evaluated at the failing input: a reader constructed on a file with
two samples, opened and started, whose task has run to the end of the data
(three iterations), is in state STOPPED with no task left, yet its task handle
is still set; the same happens to a reader that is started without `open`. -/
theorem task_handle_survives_end_of_data :
    ((Playback.ofFile WAVFileReader.blank twoSampleFile).uninterrupted 3).reader.m_playbackState
        = PlaybackState.STOPPED
      ∧ ((Playback.ofFile WAVFileReader.blank twoSampleFile).uninterrupted 3).taskAlive = false
      ∧ ((Playback.ofFile WAVFileReader.blank twoSampleFile).uninterrupted 3).reader.xPlaybackTask
        = true
      ∧ ((Playback.start (WAVFileReader.new WAVFileReader.blank
            (some twoSampleFile))).uninterrupted 1).reader.m_playbackState
        = PlaybackState.STOPPED
      ∧ ((Playback.start (WAVFileReader.new WAVFileReader.blank
            (some twoSampleFile))).uninterrupted 1).reader.xPlaybackTask = true := by
  decide

/-- C16, evaluated at the failing input: after two iterations on a file with
two samples the reader is PLAYING at offset 4, the data size; in the next
iteration `readSample` fails, no sample is written and the state becomes
STOPPED, but the read offset stays 4 instead of 0. -/
theorem end_of_data_keeps_offset :
    ((Playback.ofFile WAVFileReader.blank twoSampleFile).uninterrupted 2).reader.m_playbackState
        = PlaybackState.PLAYING
      ∧ ((Playback.ofFile WAVFileReader.blank twoSampleFile).uninterrupted 2).reader.readSample.1
        = none
      ∧ (playbackTaskStep
          ((Playback.ofFile WAVFileReader.blank twoSampleFile).uninterrupted 2).reader).1.output
        = ((Playback.ofFile WAVFileReader.blank twoSampleFile).uninterrupted 2).reader.output
      ∧ (playbackTaskStep
          ((Playback.ofFile WAVFileReader.blank twoSampleFile).uninterrupted 2).reader).1.m_playbackState
        = PlaybackState.STOPPED
      ∧ (playbackTaskStep
          ((Playback.ofFile WAVFileReader.blank twoSampleFile).uninterrupted 2).reader).1.m_currentPos
        = 4 := by
  decide

/-! ## Recording while a playback session is active -/

/-- A completed call of `recordAudio` leaves the reader pointer as it found it. -/
theorem recordAudio_reader (sm : SpeakerManager) (D R : Int) (sdOk : Bool) (heap : Nat → Int)
    (start : Nat) (obs : List LoopObs) (res : RecResult)
    (h : sm.recordAudio D R sdOk heap start obs = Except.ok res) :
    res.sm.wavfileReader = sm.wavfileReader := by
  unfold SpeakerManager.recordAudio at h
  split at h
  · cases h
  · split at h
    · cases h
    · split at h
      · cases h
      · cases h
        rfl

/-- What one iteration of the playback task does to the playback state: in
`PAUSED` it stays `PAUSED`; in `PLAYING` it stays `PLAYING` when `readSample`
delivers a sample and becomes `STOPPED` when it does not. -/
theorem playbackTaskStep_state (r : WAVFileReader) :
    (r.m_playbackState = PlaybackState.PAUSED →
        (playbackTaskStep r).1.m_playbackState = PlaybackState.PAUSED)
      ∧ (r.m_playbackState = PlaybackState.PLAYING → r.readSample.1 ≠ none →
        (playbackTaskStep r).1.m_playbackState = PlaybackState.PLAYING)
      ∧ (r.m_playbackState = PlaybackState.PLAYING → r.readSample.1 = none →
        (playbackTaskStep r).1.m_playbackState = PlaybackState.STOPPED) := by
  have hkeep : r.readSample.2.m_playbackState = r.m_playbackState := by
    unfold WAVFileReader.readSample
    split
    · rfl
    · split
      split <;> rfl
  refine ⟨?_, ?_, ?_⟩
  · intro h
    unfold playbackTaskStep
    rw [h]
  · intro h hsome
    unfold playbackTaskStep
    rw [h]
    cases hrs : r.readSample with
    | mk o r1 =>
      rw [hrs] at hsome hkeep
      cases o with
      | none => exact absurd rfl hsome
      | some v =>
        show r1.m_playbackState = PlaybackState.PLAYING
        rw [← h]
        exact hkeep
  · intro h hnone
    unfold playbackTaskStep
    rw [h]
    cases hrs : r.readSample with
    | mk o r1 =>
      rw [hrs] at hnone hkeep
      simp only at hnone hkeep
      subst hnone
      show r1.stopPlaybackInTask.m_playbackState = PlaybackState.STOPPED
      have hne : r1.m_playbackState ≠ PlaybackState.STOPPED := by
        rw [hkeep, h]
        decide
      unfold WAVFileReader.stopPlaybackInTask
      rw [if_pos hne]
      split <;> rfl

/-- A paused reader stays paused however many iterations its task runs. -/
theorem afterTaskSteps_paused (r : WAVFileReader)
    (h : r.m_playbackState = PlaybackState.PAUSED) (k : Nat) :
    (r.afterTaskSteps k).m_playbackState = PlaybackState.PAUSED := by
  induction k with
  | zero => exact h
  | succ n ih => exact (playbackTaskStep_state (r.afterTaskSteps n)).1 ih

/-- A completed call of `recordAudio`, seen with the playback task, is a
completed call of `recordAudio` whose reader the task has advanced. -/
theorem recordAudioWithTask_ok (sm : SpeakerManager) (D R : Int) (sdOk : Bool)
    (heap : Nat → Int) (start : Nat) (obs : List LoopObs) (n : Nat) (res : RecResult)
    (h : sm.recordAudioWithTask D R sdOk heap start obs n = Except.ok res) :
    ∃ res0, sm.recordAudio D R sdOk heap start obs = Except.ok res0
      ∧ res.loopState = res0.loopState ∧ res.exit = res0.exit
      ∧ res.sm.wavfileWriter = res0.sm.wavfileWriter
      ∧ res.sm.wavfileReader = sm.wavfileReader.map (fun r => r.afterTaskSteps n) := by
  unfold SpeakerManager.recordAudioWithTask at h
  cases h0 : sm.recordAudio D R sdOk heap start obs with
  | error e =>
    rw [h0] at h
    cases h
  | ok res0 =>
    rw [h0] at h
    simp only [Except.ok.injEq] at h
    subst h
    refine ⟨res0, rfl, rfl, rfl, rfl, ?_⟩
    show res0.sm.wavfileReader.map (fun r => r.afterTaskSteps n)
      = sm.wavfileReader.map (fun r => r.afterTaskSteps n)
    rw [recordAudio_reader sm D R sdOk heap start obs res0 h0]

/-- C20, as amended: `recordAudio` itself never tears playback down and makes
no call on the reader. When a call returns, the controller holds a reader
exactly if it held one at the call, and that reader is the one it held, changed
only by the iterations its own playback task ran during the call (any number
`n` of them). A session that was `PAUSED` is `PAUSED` at every moment of the
call and on return; a session that was `PLAYING` stays `PLAYING` with every
task iteration that delivers a sample and is stopped by the task itself, not
by `recordAudio`, when the data ends. The tear-down lives in
`SpeakerManager::startRecording`, which acts exactly as `stopPlayback`: after
it no reader remains. -/
theorem record_does_not_tear_down_playback (sm : SpeakerManager) (D R : Int) (sdOk : Bool)
    (heap : Nat → Int) (start : Nat) (obs : List LoopObs) (n : Nat) (res : RecResult)
    (h : sm.recordAudioWithTask D R sdOk heap start obs n = Except.ok res) :
    res.sm.wavfileReader = sm.wavfileReader.map (fun r => r.afterTaskSteps n)
      ∧ res.sm.wavfileReader.isSome = sm.wavfileReader.isSome
      ∧ (∀ r, sm.wavfileReader = some r → r.m_playbackState = PlaybackState.PAUSED →
          (∀ k, (r.afterTaskSteps k).m_playbackState = PlaybackState.PAUSED)
          ∧ res.sm.wavfileReader.map (fun x => x.m_playbackState) = some PlaybackState.PAUSED)
      ∧ (∀ r : WAVFileReader, r.m_playbackState = PlaybackState.PLAYING →
          (r.readSample.1 ≠ none →
            (playbackTaskStep r).1.m_playbackState = PlaybackState.PLAYING)
          ∧ (r.readSample.1 = none →
            (playbackTaskStep r).1.m_playbackState = PlaybackState.STOPPED))
      ∧ sm.startRecording = sm.stopPlayback
      ∧ sm.startRecording.wavfileReader = none := by
  obtain ⟨_, _, _, _, _, hreader⟩ := recordAudioWithTask_ok sm D R sdOk heap start obs n res h
  refine ⟨hreader, ?_, ?_, ?_, rfl, ?_⟩
  · rw [hreader]
    cases sm.wavfileReader <;> rfl
  · intro r hr hp
    refine ⟨afterTaskSteps_paused r hp, ?_⟩
    rw [hreader, hr]
    exact congrArg some (afterTaskSteps_paused r hp n)
  · intro r hp
    exact ⟨(playbackTaskStep_state r).2.1 hp, (playbackTaskStep_state r).2.2 hp⟩
  · unfold SpeakerManager.startRecording SpeakerManager.stopPlayback
    cases hr : sm.wavfileReader <;> simp [hr]

/-- The shipped recording call (8000 Hz, 2100 ms, stop button pressed in the
first iteration) made while a session on a two-sample file is playing. -/
theorem recordAudio_while_playing :
    SpeakerManager.playingTwoSamples.recordAudio
        2100 8000 true (fun _ => 0) 0 [⟨0, 0, 1234, false⟩]
      = Except.ok ⟨{ SpeakerManager.playingTwoSamples with
          wavfileWriter := some ((WAVFileWriter.new true CHANNEL 8000 (cdiv 2100 1000)).writeFrames
            ((recordAudioLoop 2100 8000 (fun _ => 0) 0 [⟨0, 0, 1234, false⟩]).1.buffer.map
              (fun v => (v, v)))).close
          buffer := [] },
        (recordAudioLoop 2100 8000 (fun _ => 0) 0 [⟨0, 0, 1234, false⟩]).1,
        LoopExit.stopButton⟩ := by
  have hbs : bufferSize 2100 8000 = 16000 := by decide
  have hloop : recordAudioLoop 2100 8000 (fun _ => 0) 0 [⟨0, 0, 1234, false⟩]
      = ((recordAudioLoop 2100 8000 (fun _ => 0) 0 [⟨0, 0, 1234, false⟩]).1,
          LoopExit.stopButton) := by
    apply Prod.ext
    · rfl
    · decide
  exact recordAudio_ok _ 2100 8000 true (fun _ => 0) 0 [⟨0, 0, 1234, false⟩] _
    LoopExit.stopButton (by rw [hbs]; decide) (by decide) hloop (by decide)

/-- The shipped recording call (8000 Hz, 2100 ms, the mid-scale microphone
value 1230, stop button pressed in the first iteration) made on a controller
whose session on the two-sample file is paused, with three iterations of the
playback task run meanwhile. -/
theorem recordAudioWithTask_while_paused :
    SpeakerManager.playingTwoSamples.pausePlayback.recordAudioWithTask
        2100 8000 true (fun _ => 0) 0 [⟨0, 0, 1230, false⟩] 3
      = Except.ok ⟨{ SpeakerManager.playingTwoSamples.pausePlayback with
          wavfileReader := SpeakerManager.playingTwoSamples.pausePlayback.wavfileReader.map
            (fun r => r.afterTaskSteps 3)
          wavfileWriter := some ((WAVFileWriter.new true CHANNEL 8000 (cdiv 2100 1000)).writeFrames
            ((recordAudioLoop 2100 8000 (fun _ => 0) 0 [⟨0, 0, 1230, false⟩]).1.buffer.map
              (fun v => (v, v)))).close
          buffer := [] },
        (recordAudioLoop 2100 8000 (fun _ => 0) 0 [⟨0, 0, 1230, false⟩]).1,
        LoopExit.stopButton⟩ := by
  have hbs : bufferSize 2100 8000 = 16000 := by decide
  have hloop : recordAudioLoop 2100 8000 (fun _ => 0) 0 [⟨0, 0, 1230, false⟩]
      = ((recordAudioLoop 2100 8000 (fun _ => 0) 0 [⟨0, 0, 1230, false⟩]).1,
          LoopExit.stopButton) := by
    apply Prod.ext
    · rfl
    · decide
  unfold SpeakerManager.recordAudioWithTask
  rw [recordAudio_ok _ 2100 8000 true (fun _ => 0) 0 [⟨0, 0, 1230, false⟩] _
    LoopExit.stopButton (by rw [hbs]; decide) (by decide) hloop (by decide)]

/-- A session playing the two-sample file whose task runs three iterations
while `recordAudio` runs has been stopped by its own task when the call
returns: the reader is still held, in state `STOPPED`, with the offset 4 that
the task's self-deletion leaves behind. -/
theorem playing_session_ends_by_itself :
    (SpeakerManager.playingTwoSamples.wavfileReader.map (fun r => r.afterTaskSteps 3)).map
        (fun r => (r.m_playbackState, r.m_currentPos, r.output))
      = some (PlaybackState.STOPPED, 4, [1, 2]) := by
  decide

/-- Witness of C20: the shipped recording call made while a session on the
two-sample file is paused; the reader on return is still paused. -/
theorem record_does_not_tear_down_playback_witness :
    (SpeakerManager.playingTwoSamples.pausePlayback.wavfileReader.map
        (fun r => r.afterTaskSteps 3)).map (fun x => x.m_playbackState)
      = some PlaybackState.PAUSED :=
  ((record_does_not_tear_down_playback SpeakerManager.playingTwoSamples.pausePlayback
    2100 8000 true (fun _ => 0) 0 [⟨0, 0, 1230, false⟩] 3 _
    recordAudioWithTask_while_paused).2.2.1 _ rfl (by decide)).2

/-- C20 as stated fails: `startPlayback` on the two-sample file followed by
`pausePlayback` leaves an active session in state `PAUSED`; the shipped
recording call made then acquires a sample and returns with the reader still
present and still `PAUSED`, although the playback task ran three iterations
meanwhile. -/
theorem paused_session_survives_recordAudio :
    SpeakerManager.idle.startPlayback WAVFileReader.blank (some twoSampleFile)
        = some SpeakerManager.playingTwoSamples
      ∧ SpeakerManager.playingTwoSamples.pausePlayback.wavfileReader.map
          (fun r => r.m_playbackState) = some PlaybackState.PAUSED
      ∧ (SpeakerManager.playingTwoSamples.pausePlayback.recordAudioWithTask
          2100 8000 true (fun _ => 0) 0 [⟨0, 0, 1230, false⟩] 3).map
            (fun res => (res.loopState.sampleIndex,
              res.sm.wavfileReader.map (fun r => r.m_playbackState)))
        = Except.ok (1, some PlaybackState.PAUSED) := by
  refine ⟨by decide, by decide, ?_⟩
  have hidx : (recordAudioLoop 2100 8000 (fun _ => 0) 0 [⟨0, 0, 1230, false⟩]).1.sampleIndex
      = 1 := by decide
  have hst : (SpeakerManager.playingTwoSamples.pausePlayback.wavfileReader.map
      (fun r => r.afterTaskSteps 3)).map (fun r => r.m_playbackState)
      = some PlaybackState.PAUSED := by decide
  rw [recordAudioWithTask_while_paused]
  simp only [Except.map, hidx, hst]

/-! ## The most recent recording -/

theorem scanInv_step (seen : List DirEntry) (acc : Nat × String) (x : DirEntry)
    (h : ScanInv seen acc) : ScanInv (seen ++ [x]) (scanEntry acc x) := by
  unfold scanEntry
  by_cases hrec : (!x.isDirectory && endsWith x.name EXTENSION) = true
  · have hx : IsRecording x := by
      simp only [Bool.and_eq_true, Bool.not_eq_true'] at hrec
      exact hrec
    rw [if_pos hrec]
    by_cases hnew : x.lastWrite > acc.1
    · rw [if_pos hnew]
      right
      rcases h with ⟨hacc, hall⟩ | ⟨pre, e, post, hseen, hacc, he, hpre, hpost⟩
      · refine ⟨seen, x, [], rfl, rfl, hx, ?_, by simp⟩
        intro y hy hyrec
        have := hall y hy hyrec
        rw [hacc] at hnew
        simp only at hnew
        omega
      · refine ⟨seen, x, [], rfl, rfl, hx, ?_, by simp⟩
        rw [hacc] at hnew
        simp only at hnew
        intro y hy hyrec
        rw [hseen] at hy
        simp only [List.mem_append, List.mem_cons] at hy
        rcases hy with hy | hy | hy
        · have := hpre y hy hyrec
          omega
        · subst hy
          exact hnew
        · have := hpost y hy hyrec
          omega
    · rw [if_neg hnew]
      rcases h with ⟨hacc, hall⟩ | ⟨pre, e, post, hseen, hacc, he, hpre, hpost⟩
      · left
        refine ⟨hacc, ?_⟩
        intro y hy hyrec
        simp only [List.mem_append, List.mem_singleton] at hy
        rcases hy with hy | hy
        · exact hall y hy hyrec
        · subst hy
          rw [hacc] at hnew
          simp only at hnew
          omega
      · right
        refine ⟨pre, e, post ++ [x], by rw [hseen]; simp, hacc, he, hpre, ?_⟩
        intro y hy hyrec
        simp only [List.mem_append, List.mem_singleton] at hy
        rcases hy with hy | hy
        · exact hpost y hy hyrec
        · subst hy
          rw [hacc] at hnew
          simp only at hnew
          omega
  · rw [if_neg hrec]
    have hnot : ¬ IsRecording x := by
      intro hx
      apply hrec
      simp only [Bool.and_eq_true, Bool.not_eq_true']
      exact hx
    rcases h with ⟨hacc, hall⟩ | ⟨pre, e, post, hseen, hacc, he, hpre, hpost⟩
    · left
      refine ⟨hacc, ?_⟩
      intro y hy hyrec
      simp only [List.mem_append, List.mem_singleton] at hy
      rcases hy with hy | hy
      · exact hall y hy hyrec
      · subst hy
        exact absurd hyrec hnot
    · right
      refine ⟨pre, e, post ++ [x], by rw [hseen]; simp, hacc, he, hpre, ?_⟩
      intro y hy hyrec
      simp only [List.mem_append, List.mem_singleton] at hy
      rcases hy with hy | hy
      · exact hpost y hy hyrec
      · subst hy
        exact absurd hyrec hnot

theorem scanInv_foldl (rest : List DirEntry) :
    ∀ (seen : List DirEntry) (acc : Nat × String), ScanInv seen acc →
      ScanInv (seen ++ rest) (rest.foldl scanEntry acc) := by
  induction rest with
  | nil => intro seen acc h; simpa using h
  | cons x xs ih =>
    intro seen acc h
    have := ih (seen ++ [x]) (scanEntry acc x) (scanInv_step seen acc x h)
    simpa using this

/-- C19: for every listing of the recording directory, when
`getLastRecordedFilename` returns a non-empty name, that name is the name of a
non-directory entry ending in ".wav" whose last-write time is strictly greater
than that of every such entry listed before it and at least that of every such
entry listed after it (the first of the most recent ones); and the result is
empty when the directory cannot be opened. -/
theorem most_recent_recording (entries : List DirEntry)
    (h : SDCardManager.getLastRecordedFilename (some entries) ≠ "") :
    (∃ pre e post, entries = pre ++ e :: post
        ∧ SDCardManager.getLastRecordedFilename (some entries) = e.name
        ∧ e.isDirectory = false ∧ endsWith e.name EXTENSION = true
        ∧ (∀ x ∈ pre, IsRecording x → x.lastWrite < e.lastWrite)
        ∧ (∀ x ∈ post, IsRecording x → x.lastWrite ≤ e.lastWrite))
      ∧ SDCardManager.getLastRecordedFilename none = "" := by
  refine ⟨?_, rfl⟩
  have hinv := scanInv_foldl entries [] (0, "") (Or.inl ⟨rfl, by simp⟩)
  simp only [List.nil_append] at hinv
  rcases hinv with ⟨hacc, _⟩ | ⟨pre, e, post, hseen, hacc, he, hpre, hpost⟩
  · exfalso
    apply h
    show (entries.foldl scanEntry (0, "")).2 = ""
    rw [hacc]
  · refine ⟨pre, e, post, hseen, ?_, he.1, he.2, hpre, hpost⟩
    show (entries.foldl scanEntry (0, "")).2 = e.name
    rw [hacc]

/-- Witness of C19: among two recordings written at the same time, a text
file and a directory, the first recording is returned. -/
theorem most_recent_recording_witness :
    SDCardManager.getLastRecordedFilename (some [⟨"old.wav", false, 5⟩, ⟨"a.wav", false, 7⟩,
        ⟨"b.wav", false, 7⟩, ⟨"notes.txt", false, 9⟩, ⟨"dir.wav", true, 9⟩]) = "a.wav"
    ∧ ∃ pre e post, [⟨"old.wav", false, 5⟩, ⟨"a.wav", false, 7⟩,
        ⟨"b.wav", false, 7⟩, ⟨"notes.txt", false, 9⟩, ⟨"dir.wav", true, 9⟩] = pre ++ e :: post
      ∧ SDCardManager.getLastRecordedFilename (some [⟨"old.wav", false, 5⟩, ⟨"a.wav", false, 7⟩,
        ⟨"b.wav", false, 7⟩, ⟨"notes.txt", false, 9⟩, ⟨"dir.wav", true, 9⟩]) = e.name
      ∧ e.isDirectory = false ∧ endsWith e.name EXTENSION = true
      ∧ (∀ x ∈ pre, IsRecording x → x.lastWrite < e.lastWrite)
      ∧ (∀ x ∈ post, IsRecording x → x.lastWrite ≤ e.lastWrite) :=
  ⟨by decide, (most_recent_recording [⟨"old.wav", false, 5⟩, ⟨"a.wav", false, 7⟩,
        ⟨"b.wav", false, 7⟩, ⟨"notes.txt", false, 9⟩, ⟨"dir.wav", true, 9⟩] (by decide)).1⟩

/-! ## The next recording filename -/

theorem digitValue_digitChar (d : Nat) (h : d < 10) : digitValue (Nat.digitChar d) = d := by
  interval_cases d <;> decide

theorem toDigitsCore_append (f : Nat) : ∀ (n : Nat) (ds : List Char),
    Nat.toDigitsCore 10 f n ds = Nat.toDigitsCore 10 f n [] ++ ds := by
  induction f with
  | zero => intro n ds; simp [Nat.toDigitsCore]
  | succ f ih =>
    intro n ds
    simp only [Nat.toDigitsCore]
    split
    · simp
    · rw [ih (n / 10) (Nat.digitChar (n % 10) :: ds), ih (n / 10) [Nat.digitChar (n % 10)]]
      simp

theorem decimalValue_concat (xs : List Char) (c : Char) :
    decimalValue (xs ++ [c]) = 10 * decimalValue xs + digitValue c := by
  simp [decimalValue, List.foldl_append]

theorem decimalValue_toDigitsCore (f : Nat) : ∀ n : Nat, n < f →
    decimalValue (Nat.toDigitsCore 10 f n []) = n := by
  induction f with
  | zero => intro n h; omega
  | succ f ih =>
    intro n h
    simp only [Nat.toDigitsCore]
    split
    · rename_i h0
      have hn : n < 10 := by omega
      have hmod : n % 10 = n := by omega
      rw [hmod]
      simp [decimalValue, digitValue_digitChar n hn]
    · rename_i h0
      rw [toDigitsCore_append, decimalValue_concat, ih (n / 10) (by omega),
        digitValue_digitChar (n % 10) (Nat.mod_lt _ (by decide))]
      omega

/-- Reading back the decimal digits of a number gives the number. -/
theorem decimalValue_toDigits (n : Nat) : decimalValue (Nat.toDigits 10 n) = n :=
  decimalValue_toDigitsCore (n + 1) n (Nat.lt_succ_self n)

theorem dropLast4 (ys : List Char) (a b c d : Char) :
    (ys ++ [a, b, c, d]).dropLast.dropLast.dropLast.dropLast = ys := by
  have e : ys ++ [a, b, c, d] = (((ys ++ [a]) ++ [b]) ++ [c]) ++ [d] := by simp
  rw [e, List.dropLast_concat, List.dropLast_concat, List.dropLast_concat, List.dropLast_concat]

/-- The characters of the path probed for index `k`. -/
theorem recordingPath_data (k : Nat) :
    (recordingPath (recordingName (k : Int))).data
      = "/WebRecording/Recording".data
        ++ ((if k < 10 then ['0'] else []) ++ Nat.toDigits 10 k) ++ ['.', 'w', 'a', 'v'] := by
  have hneg : ¬ ((k : Int) < 0) := by omega
  have hlt : ((k : Int) < 10) ↔ k < 10 := by omega
  simp only [recordingPath, recordingName, itoa, hneg, if_false, Int.toNat_ofNat,
    RECORDING_FOLDER_PATH, BASED_RECORDING_NAME, EXTENSION, String.data_append, Nat.repr,
    List.asString, hlt]
  by_cases h10 : k < 10 <;> simp [h10]

/-- The index can be read back from the probed path. -/
theorem pathIndex_recordingPath (k : Nat) :
    pathIndex (recordingPath (recordingName (k : Int))) = k := by
  unfold pathIndex
  rw [recordingPath_data]
  have hlen : ("/WebRecording/Recording".data).length = 23 := by decide
  rw [List.append_assoc, List.drop_left' hlen, dropLast4]
  by_cases h10 : k < 10
  · simp only [h10, if_true]
    have : decimalValue (['0'] ++ Nat.toDigits 10 k) = decimalValue (Nat.toDigits 10 k) := by
      simp [decimalValue, digitValue]
    rw [this, decimalValue_toDigits]
  · simp only [h10, if_false, List.nil_append]
    exact decimalValue_toDigits k


theorem cast_succ_eq (t : Nat) : ((t : Int) + 1) = ((t + 1 : Nat) : Int) := by
  push_cast
  rfl

/-- Different indices are probed under different paths. -/
theorem recordingPath_injective (a b : Nat)
    (h : recordingPath (recordingName (a : Int)) = recordingPath (recordingName (b : Int))) :
    a = b := by
  have := congrArg pathIndex h
  rwa [pathIndex_recordingPath, pathIndex_recordingPath] at this

theorem mem_recordingsUpTo (n : Nat) (p : String) :
    p ∈ recordingsUpTo n ↔ ∃ j : Nat, 1 ≤ j ∧ j ≤ n ∧ p = recordingPath (recordingName (j : Int)) := by
  unfold recordingsUpTo
  simp only [List.mem_map, List.mem_range]
  constructor
  · rintro ⟨t, ht, rfl⟩
    exact ⟨t + 1, by omega, by omega, rfl⟩
  · rintro ⟨j, h1, h2, rfl⟩
    refine ⟨j - 1, by omega, ?_⟩
    have : j - 1 + 1 = j := by omega
    rw [this]

theorem recordingsUpTo_nodup (n : Nat) : (recordingsUpTo n).Nodup := by
  unfold recordingsUpTo
  apply List.Nodup.map _ (List.nodup_range n)
  intro a b h
  have := recordingPath_injective _ _ h
  omega

theorem recordingsUpTo_length (n : Nat) : (recordingsUpTo n).length = n := by
  simp [recordingsUpTo]

/-- Among the first `card.length + 1` indices one is unused. -/
theorem exists_free_index (card : List String) :
    ∃ k : Nat, 1 ≤ k ∧ k ≤ card.length + 1 ∧ recordingPath (recordingName (k : Int)) ∉ card := by
  by_contra hno
  push_neg at hno
  have hsub : recordingsUpTo (card.length + 1) ⊆ card := by
    intro p hp
    obtain ⟨j, h1, h2, rfl⟩ := (mem_recordingsUpTo _ _).1 hp
    exact hno j h1 h2
  have hle := (List.subperm_of_subset (recordingsUpTo_nodup _) hsub).length_le
  rw [recordingsUpTo_length] at hle
  omega

/-- The loop started at index `i` returns the name of the first unused index
`k` from `i` on, given enough iterations. -/
theorem nextFilenameLoop_spec (card : List String) (k : Nat)
    (hk : recordingPath (recordingName (k : Int)) ∉ card) (hkmax : k ≤ 2147483647) :
    ∀ (fuel i : Nat), i ≤ k → k < i + fuel →
      (∀ j : Nat, i ≤ j → j < k → recordingPath (recordingName (j : Int)) ∈ card) →
      nextFilenameLoop card fuel (i : Int) = some (recordingName (k : Int)) := by
  intro fuel
  induction fuel with
  | zero => intro i h1 h2 _; omega
  | succ fuel ih =>
    intro i h1 h2 hmin
    simp only [nextFilenameLoop]
    by_cases hmem : recordingPath (recordingName (i : Int)) ∈ card
    · rw [if_pos hmem]
      have hne : i ≠ k := by
        intro h
        rw [h] at hmem
        exact hk hmem
      have hwrap : int32 ((i : Int) + 1) = ((i + 1 : Nat) : Int) := by
        rw [int32_of_range _ (by unfold InInt32; omega)]
        exact cast_succ_eq i
      rw [hwrap]
      exact ih (i + 1) (by omega) (by omega) (fun j hj1 hj2 => hmin j (by omega) hj2)
    · rw [if_neg hmem]
      have hik : i = k := by
        by_contra hne
        exact hmem (hmin i (Nat.le_refl i) (by omega))
      rw [hik]

/-- The least unused index and what the function returns for it. -/
theorem getNextRecordingFilename_least (card : List String) :
    ∃ k : Nat, 1 ≤ k ∧ k ≤ card.length + 1
      ∧ recordingPath (recordingName (k : Int)) ∉ card
      ∧ (∀ j : Nat, 1 ≤ j → j < k → recordingPath (recordingName (j : Int)) ∈ card)
      ∧ (k ≤ 2147483647 → ∀ fuel, k ≤ fuel →
          SDCardManager.getNextRecordingFilename card fuel = some (recordingName (k : Int))) := by
  have hex : ∃ k : Nat, 1 ≤ k ∧ recordingPath (recordingName (k : Int)) ∉ card := by
    obtain ⟨k, h1, _, h3⟩ := exists_free_index card
    exact ⟨k, h1, h3⟩
  obtain ⟨k0, h01, h02, h03⟩ := exists_free_index card
  have hspec := Nat.find_spec hex
  have hle : Nat.find hex ≤ k0 := Nat.find_min' hex ⟨h01, h03⟩
  have hmin : ∀ j : Nat, 1 ≤ j → j < Nat.find hex →
      recordingPath (recordingName (j : Int)) ∈ card := by
    intro j hj1 hj2
    by_contra hnot
    exact Nat.find_min hex hj2 ⟨hj1, hnot⟩
  refine ⟨Nat.find hex, hspec.1, by omega, hspec.2, hmin, ?_⟩
  intro hmax fuel hfuel
  have := nextFilenameLoop_spec card (Nat.find hex) hspec.2 hmax fuel 1 hspec.1 (by omega)
    (fun j hj1 hj2 => hmin j hj1 hj2)
  simpa [SDCardManager.getNextRecordingFilename] using this


/-- The name built for a non-negative index, spelled out. -/
theorem recordingName_nat (k : Nat) :
    recordingName (k : Int) = "Recording" ++ (if k < 10 then "0" else "") ++ Nat.repr k := by
  have hneg : ¬ ((k : Int) < 0) := by omega
  have hlt : ((k : Int) < 10) ↔ k < 10 := by omega
  simp only [recordingName, itoa, hneg, if_false, Int.toNat_ofNat, BASED_RECORDING_NAME, hlt]

/-- C17: for every finite set `card` of existing paths (fewer than 2^31 - 1 of
them, the range of the `int` index), `getNextRecordingFilename` terminates,
within `card.length + 1` iterations, and returns "Recording" followed by the
zero-padded index `k`, the least integer `k >= 1` such that
/WebRecording/Recording<k>.wav does not exist; from an empty directory, with
each returned file created, the first three names are Recording01,
Recording02, Recording03. -/
theorem next_recording_filename (card : List String) (hcap : card.length < 2147483647) :
    (∃ k : Nat, 1 ≤ k ∧ k ≤ card.length + 1
      ∧ recordingPath (recordingName (k : Int)) ∉ card
      ∧ (∀ j : Nat, 1 ≤ j → j < k → recordingPath (recordingName (j : Int)) ∈ card)
      ∧ recordingName (k : Int) = "Recording" ++ (if k < 10 then "0" else "") ++ Nat.repr k
      ∧ ∀ fuel, card.length + 1 ≤ fuel →
          SDCardManager.getNextRecordingFilename card fuel = some (recordingName (k : Int)))
    ∧ SDCardManager.getNextRecordingFilename [] 1 = some "Recording01"
    ∧ SDCardManager.getNextRecordingFilename [recordingPath "Recording01"] 2
        = some "Recording02"
    ∧ SDCardManager.getNextRecordingFilename
        [recordingPath "Recording01", recordingPath "Recording02"] 3 = some "Recording03" := by
  refine ⟨?_, by decide, by decide, by decide⟩
  obtain ⟨k, h1, h2, h3, h4, h5⟩ := getNextRecordingFilename_least card
  exact ⟨k, h1, h2, h3, h4, recordingName_nat k,
    fun fuel hfuel => h5 (by omega) fuel (by omega)⟩

/-- Witness of C17: with Recording01 and Recording03 present the function
terminates on the least unused index. -/
theorem next_recording_filename_witness :
    ∃ k : Nat, 1 ≤ k ∧ k ≤ 2 + 1
      ∧ recordingPath (recordingName (k : Int))
          ∉ [recordingPath "Recording01", recordingPath "Recording03"]
      ∧ (∀ j : Nat, 1 ≤ j → j < k → recordingPath (recordingName (j : Int))
          ∈ [recordingPath "Recording01", recordingPath "Recording03"])
      ∧ recordingName (k : Int) = "Recording" ++ (if k < 10 then "0" else "") ++ Nat.repr k
      ∧ ∀ fuel, 2 + 1 ≤ fuel →
          SDCardManager.getNextRecordingFilename
            [recordingPath "Recording01", recordingPath "Recording03"] fuel
              = some (recordingName (k : Int)) :=
  (next_recording_filename [recordingPath "Recording01", recordingPath "Recording03"]
    (by decide)).1

/-- Below 100 the name ends in exactly two decimal digits. -/
theorem recordingName_two_digits (k : Nat) (h : k < 100) :
    recordingName (k : Int)
      = "Recording" ++ String.mk [Nat.digitChar (k / 10), Nat.digitChar (k % 10)] := by
  interval_cases k <;> decide

/-- C18, as amended: for every directory state in which one of
Recording01.wav .. Recording99.wav does not exist, the name returned by
`getNextRecordingFilename` is "Recording" followed by exactly two decimal
digits, the index zero-padded to width two. -/
theorem two_digit_index_format (card : List String)
    (hfree : ∃ j : Nat, 1 ≤ j ∧ j ≤ 99 ∧ recordingPath (recordingName (j : Int)) ∉ card) :
    ∃ k d1 d2 : Nat, 1 ≤ k ∧ k ≤ 99 ∧ d1 = k / 10 ∧ d2 = k % 10 ∧ d1 < 10 ∧ d2 < 10
      ∧ ∀ fuel, card.length + 1 ≤ fuel →
          SDCardManager.getNextRecordingFilename card fuel
            = some ("Recording" ++ String.mk [Nat.digitChar d1, Nat.digitChar d2]) := by
  obtain ⟨k, h1, h2, h3, h4, h5⟩ := getNextRecordingFilename_least card
  obtain ⟨j, hj1, hj2, hj3⟩ := hfree
  have hk99 : k ≤ 99 := by
    by_contra hgt
    exact hj3 (h4 j hj1 (by omega))
  refine ⟨k, k / 10, k % 10, h1, hk99, rfl, rfl, by omega, by omega, ?_⟩
  intro fuel hfuel
  rw [h5 (by omega) fuel (by omega)]
  exact congrArg some (recordingName_two_digits k (by omega))

/-- Witness of C18: an empty directory. -/
theorem two_digit_index_format_witness :
    ∃ k d1 d2 : Nat, 1 ≤ k ∧ k ≤ 99 ∧ d1 = k / 10 ∧ d2 = k % 10 ∧ d1 < 10 ∧ d2 < 10
      ∧ ∀ fuel, ([] : List String).length + 1 ≤ fuel →
          SDCardManager.getNextRecordingFilename [] fuel
            = some ("Recording" ++ String.mk [Nat.digitChar d1, Nat.digitChar d2]) :=
  two_digit_index_format [] ⟨1, by decide, by decide, by decide⟩

/-- C18 as stated fails: when Recording01.wav .. Recording99.wav all exist the
function returns "Recording100", the base name followed by three digits. -/
theorem hundredth_recording_has_three_digits :
    SDCardManager.getNextRecordingFilename (recordingsUpTo 99) 100 = some "Recording100"
    ∧ ¬ ∃ d1 d2 : Char, "Recording100" = "Recording" ++ String.mk [d1, d2] := by
  constructor
  · have hfree : recordingPath (recordingName ((100 : Nat) : Int)) ∉ recordingsUpTo 99 := by
      intro hmem
      obtain ⟨j, _, hj2, hj⟩ := (mem_recordingsUpTo _ _).1 hmem
      have := recordingPath_injective _ _ hj
      omega
    have hall : ∀ j : Nat, 1 ≤ j → j < 100 →
        recordingPath (recordingName (j : Int)) ∈ recordingsUpTo 99 :=
      fun j hj1 hj2 => (mem_recordingsUpTo _ _).2 ⟨j, hj1, by omega, rfl⟩
    have := nextFilenameLoop_spec (recordingsUpTo 99) 100 hfree (by decide) 100 1 (by decide)
      (by decide) hall
    have hname : recordingName ((100 : Nat) : Int) = "Recording100" := by decide
    rw [hname] at this
    exact this
  · rintro ⟨d1, d2, h⟩
    have hlen := congrArg String.length h
    rw [String.length_append] at hlen
    have h9 : ("Recording" : String).length = 9 := by decide
    have h12 : ("Recording100" : String).length = 12 := by decide
    have h2 : (String.mk [d1, d2]).length = 2 := rfl
    omega

/-! ## Volume and microphone scaling -/

/-- C22: for every integer `v`, after `setVolume(v)` the stored volume equals
`min(max(v, 0), 100)`, so it lies in [0, 100] and equals `v` whenever
`0 <= v <= 100`; the reader, the writer, the pause flag and the buffer are
unchanged. -/
theorem volume_clamp (sm : SpeakerManager) (v : Int) :
    (sm.setVolume v).currentVolume = min (max v 0) 100
      ∧ 0 ≤ (sm.setVolume v).currentVolume ∧ (sm.setVolume v).currentVolume ≤ 100
      ∧ (0 ≤ v ∧ v ≤ 100 → (sm.setVolume v).currentVolume = v)
      ∧ (sm.setVolume v).wavfileReader = sm.wavfileReader
      ∧ (sm.setVolume v).wavfileWriter = sm.wavfileWriter
      ∧ (sm.setVolume v).isPaused = sm.isPaused
      ∧ (sm.setVolume v).buffer = sm.buffer := by
  have hv : (sm.setVolume v).currentVolume = constrain v 0 100 := rfl
  rw [hv]
  unfold constrain
  refine ⟨?_, ?_, ?_, ?_, rfl, rfl, rfl, rfl⟩
  · split
    · omega
    · split <;> omega
  · split
    · omega
    · split <;> omega
  · split
    · omega
    · split <;> omega
  · intro h
    split
    · omega
    · split <;> omega

/-- The value `readOutput` computes for a raw reading in the ADC range. -/
theorem readOutput_value (x : Int) (h0 : 0 ≤ x) (h1 : x ≤ 1024) :
    MicManager.readOutput x = x * 20000 / 1024 - 10000 := by
  unfold MicManager.readOutput map MIC_RESOLUTION_MIN MIC_RESOLUTION_MAX WAV_RESOLUTION_MIN
    WAV_RESOLUTION_MAX
  have hrun : int32 (1024 - 0) = 1024 := by decide
  have hrise : int32 (10000 - -10000) = 20000 := by decide
  have hdelta : int32 (x - 0) = x := by
    rw [int32_of_range (x - 0) (by unfold InInt32; omega)]
    omega
  have hprod : int32 (x * 20000) = x * 20000 := int32_of_range _ (by unfold InInt32; omega)
  have hdiv : cdiv (x * 20000) 1024 = x * 20000 / 1024 :=
    cdiv_of_nonneg _ _ (by omega) (by decide)
  simp only [hrun, hrise, hdelta, hprod, hdiv]
  rw [if_neg (by decide), int32_of_range (x * 20000 / 1024) (by unfold InInt32; omega),
    int32_of_range (x * 20000 / 1024 + -10000) (by unfold InInt32; omega)]
  rw [int16_of_range _ (by omega) (by omega)]
  omega

/-- C23: for every raw ADC reading `x` with `0 <= x <= 1024`, `readOutput`
returns `x * 20000 / 1024 - 10000` (integer division), a value that fits a
signed 16-bit integer, lies in [-10000, 10000], is non-decreasing in `x`, and
equals -10000 at `x = 0` and 10000 at `x = 1024`. -/
theorem microphone_sample_range (x : Int) (h0 : 0 ≤ x) (h1 : x ≤ 1024) :
    MicManager.readOutput x = x * 20000 / 1024 - 10000
      ∧ -32768 ≤ MicManager.readOutput x ∧ MicManager.readOutput x ≤ 32767
      ∧ WAV_RESOLUTION_MIN ≤ MicManager.readOutput x
      ∧ MicManager.readOutput x ≤ WAV_RESOLUTION_MAX
      ∧ (∀ y : Int, x ≤ y → y ≤ 1024 → MicManager.readOutput x ≤ MicManager.readOutput y)
      ∧ MicManager.readOutput 0 = -10000 ∧ MicManager.readOutput 1024 = 10000 := by
  have hx := readOutput_value x h0 h1
  refine ⟨hx, ?_, ?_, ?_, ?_, ?_, by decide, by decide⟩
  · rw [hx]; omega
  · rw [hx]; omega
  · rw [hx]; unfold WAV_RESOLUTION_MIN; omega
  · rw [hx]; unfold WAV_RESOLUTION_MAX; omega
  · intro y hxy hy
    rw [hx, readOutput_value y (by omega) hy]
    omega

/-- Witness of C23: the mid-scale reading 512 gives 0. -/
theorem microphone_sample_range_witness : MicManager.readOutput 512 = 512 * 20000 / 1024 - 10000 :=
  (microphone_sample_range 512 (by decide) (by decide)).1

/-! ## Stereo frames, restart, recordings without a time stamp -/

/-- C27, evaluated at the failing input: a stereo writer (`num_channels = 2`)
that accepts one frame and is closed holds two data bytes after the 44-byte
header, the left sample only, while its header says `dlength = 4`. -/
theorem stereo_header_overstates_data :
    (((WAVFileWriter.new true 2 8000 1).writeFrame 1 2).close).m_file.bytes.length = 44 + 2
      ∧ (((WAVFileWriter.new true 2 8000 1).writeFrame 1 2).close).m_file.bytes.drop 44 = [1, 0]
      ∧ (((WAVFileWriter.new true 2 8000 1).writeFrame 1 2).close).m_samplesWritten = 1
      ∧ (((WAVFileWriter.new true 2 8000 1).writeFrame 1 2).close).m_header.dlength = 4 := by
  decide

/-- C29, evaluated at the failing input: a reader opened on a file with the
samples 1 and 2 is started, delivers sample 1, is stopped and started again.
Its read offset is 0 but the file cursor is 46, not 44 + 0, and the next
`readSample` yields 2, the second sample. -/
theorem restart_resumes_mid_file :
    ((Playback.ofFile WAVFileReader.blank twoSampleFile).uninterrupted 1).reader.output = [1]
      ∧ (((Playback.ofFile WAVFileReader.blank twoSampleFile).uninterrupted
          1).reader.stopPlayback.startPlayback).m_playbackState = PlaybackState.PLAYING
      ∧ (((Playback.ofFile WAVFileReader.blank twoSampleFile).uninterrupted
          1).reader.stopPlayback.startPlayback).m_currentPos = 0
      ∧ (((Playback.ofFile WAVFileReader.blank twoSampleFile).uninterrupted
          1).reader.stopPlayback.startPlayback).m_file.pos = 46
      ∧ (((Playback.ofFile WAVFileReader.blank twoSampleFile).uninterrupted
          1).reader.stopPlayback.startPlayback).readSample.1 = some 2 := by
  decide

/-- C30, evaluated at the failing input: a listing whose only entry is the
file Recording01.wav with last-write time 0 yields the empty name. -/
theorem recording_with_time_zero_not_found :
    IsRecording ⟨"Recording01.wav", false, 0⟩
      ∧ SDCardManager.getLastRecordedFilename (some [⟨"Recording01.wav", false, 0⟩]) = "" := by
  refine ⟨⟨rfl, by decide⟩, by decide⟩

/-! ## What `recordAudio` reports, and the size of its buffer -/

theorem writeFrame_closed (w : WAVFileWriter) (l r : Int) (h : w.m_file.isOpen = false) :
    (w.writeFrame l r).m_file = w.m_file := by
  unfold WAVFileWriter.writeFrame
  split
  · simp [File.write, h]
  · rfl

theorem writeFrames_closed (frames : List (Int × Int)) :
    ∀ w : WAVFileWriter, w.m_file.isOpen = false → (w.writeFrames frames).m_file = w.m_file := by
  induction frames with
  | nil => intro w _; rfl
  | cons fr rest ih =>
    intro w h
    rw [writeFrames_cons, ih _ (by rw [writeFrame_closed w fr.1 fr.2 h]; exact h),
      writeFrame_closed w fr.1 fr.2 h]

theorem close_closed (w : WAVFileWriter) (h : w.m_file.isOpen = false) :
    w.close.m_file = w.m_file := by
  cases hf : w.m_file with
  | mk o b p =>
    rw [hf] at h
    simp only at h
    subst h
    simp [WAVFileWriter.close, File.close, File.seek, File.write, hf]

theorem writeFrame_totalSamples (w : WAVFileWriter) (l r : Int) :
    (w.writeFrame l r).m_totalSamples = w.m_totalSamples := by
  unfold WAVFileWriter.writeFrame
  split <;> rfl

theorem writeFrames_totalSamples (frames : List (Int × Int)) :
    ∀ w : WAVFileWriter, (w.writeFrames frames).m_totalSamples = w.m_totalSamples := by
  induction frames with
  | nil => intro w; rfl
  | cons fr rest ih =>
    intro w
    rw [writeFrames_cons, ih, writeFrame_totalSamples]

/-- What a completed call of `recordAudio` is made of. -/
theorem recordAudio_inv (sm : SpeakerManager) (D R : Int) (sdOk : Bool) (heap : Nat → Int)
    (start : Nat) (obs : List LoopObs) (res : RecResult)
    (h : sm.recordAudio D R sdOk heap start obs = Except.ok res) :
    0 ≤ bufferSize D R
      ∧ res.loopState = (recordAudioLoop D R heap start obs).1
      ∧ res.exit = (recordAudioLoop D R heap start obs).2
      ∧ res.sm.wavfileWriter = some ((WAVFileWriter.new sdOk CHANNEL R (cdiv D 1000)).writeFrames
          (res.loopState.buffer.map (fun v => (v, v)))).close := by
  unfold SpeakerManager.recordAudio at h
  split at h
  · cases h
  · rename_i hbs
    split at h
    · cases h
    · split at h
      · cases h
      · rename_i st ex hne heq
        cases h
        refine ⟨by omega, ?_, ?_, rfl⟩
        · rw [heq]
        · rw [heq]

/-- With a target file that cannot be opened the writer's handle stays
invalid through every `writeFrame` and `close`. -/
theorem record_result_file (sm : SpeakerManager) (D R : Int)
    (heap : Nat → Int) (start : Nat) (obs : List LoopObs) :
    (sm.recordAudio D R false heap start obs).map
        (fun res => res.sm.wavfileWriter.map (fun w => w.m_file))
      = (sm.recordAudio D R false heap start obs).map (fun _ => some File.invalid) := by
  cases hres : sm.recordAudio D R false heap start obs with
  | error e => rfl
  | ok res =>
    obtain ⟨_, _, _, hw⟩ := recordAudio_inv sm D R false heap start obs res hres
    simp only [Except.map, hw, Option.map_some']
    have hnew : (WAVFileWriter.new false CHANNEL R (cdiv D 1000)).m_file = File.invalid := by
      simp [WAVFileWriter.new, File.openWrite, File.write, File.invalid]
    have hclosed : (WAVFileWriter.new false CHANNEL R (cdiv D 1000)).m_file.isOpen = false := by
      rw [hnew]; rfl
    have h1 := writeFrames_closed (res.loopState.buffer.map (fun v => (v, v))) _ hclosed
    rw [close_closed _ (by rw [h1]; exact hclosed), h1, hnew]

/-- C21, as amended: `recordAudio` returns no value, neither a sample count
nor a failure. When the target file cannot be opened the call runs the same
loop and ends the same way as when it can (same loop state, same sample count,
same exit), no write is retried, and the writer's file handle stays invalid
with nothing persisted. -/
theorem record_result_ignores_open_failure (sm : SpeakerManager) (D R : Int)
    (heap : Nat → Int) (start : Nat) (obs : List LoopObs) :
    (sm.recordAudio D R false heap start obs).map (fun res => (res.loopState, res.exit))
        = (sm.recordAudio D R true heap start obs).map (fun res => (res.loopState, res.exit))
      ∧ (sm.recordAudio D R false heap start obs).map
          (fun res => res.sm.wavfileWriter.map (fun w => w.m_file))
        = (sm.recordAudio D R false heap start obs).map (fun _ => some File.invalid) := by
  constructor
  · unfold SpeakerManager.recordAudio
    by_cases hbs : bufferSize D R < 0
    · simp [hbs, Except.map]
    · by_cases hR : R = 0
      · simp [hbs, hR, Except.map]
      · simp only [hbs, hR, if_false]
        cases hl : recordAudioLoop D R heap start obs with
        | mk st ex => cases ex <;> simp [Except.map]
  · exact record_result_file sm D R heap start obs

/-- C21 as stated fails: with a target file that cannot be opened, the shipped
recording call (8000 Hz, 2100 ms, stop button pressed in the first iteration)
completes like a successful one, with one sample acquired and no failure
reported, while the file handle is invalid and no byte is persisted. -/
theorem unopened_file_is_not_reported :
    (SpeakerManager.idle.recordAudio 2100 8000 false (fun _ => 0) 0 [⟨0, 0, 1234, false⟩]).map
        (fun res => (res.exit, res.loopState.sampleIndex,
          res.sm.wavfileWriter.map (fun w => w.m_file)))
      = Except.ok (LoopExit.stopButton, 1, some File.invalid) := by
  have hbs : bufferSize 2100 8000 = 16000 := by decide
  have hloop : recordAudioLoop 2100 8000 (fun _ => 0) 0 [⟨0, 0, 1234, false⟩]
      = ((recordAudioLoop 2100 8000 (fun _ => 0) 0 [⟨0, 0, 1234, false⟩]).1,
          LoopExit.stopButton) := by
    apply Prod.ext
    · rfl
    · decide
  have hidx : (recordAudioLoop 2100 8000 (fun _ => 0) 0 [⟨0, 0, 1234, false⟩]).1.sampleIndex
      = 1 := by decide
  have hok := recordAudio_ok SpeakerManager.idle 2100 8000 false (fun _ => 0) 0
    [⟨0, 0, 1234, false⟩] _ LoopExit.stopButton (by rw [hbs]; decide) (by decide) hloop
    (by decide)
  have hfile := (record_result_file SpeakerManager.idle 2100 8000 (fun _ => 0) 0
    [⟨0, 0, 1234, false⟩])
  rw [hok] at hfile ⊢
  simp only [Except.map, Except.ok.injEq] at hfile ⊢
  rw [hidx, hfile]

/-- C25, as amended: in every completed call of `recordAudio` with rate `R`
and a requested duration of `D` milliseconds the sample buffer has exactly
`buffer_size` slots and the writer's frame cap `m_totalSamples` equals
`buffer_size`; `buffer_size` is `R * (D / 1000)` (truncating division)
whenever that product lies between 0 and 2147483647. -/
theorem buffer_sizing (sm : SpeakerManager) (D R : Int) (sdOk : Bool) (heap : Nat → Int)
    (start : Nat) (obs : List LoopObs) (res : RecResult)
    (h : sm.recordAudio D R sdOk heap start obs = Except.ok res) :
    (res.loopState.buffer.length : Int) = bufferSize D R
      ∧ (∃ w, res.sm.wavfileWriter = some w ∧ w.m_totalSamples = bufferSize D R)
      ∧ (0 ≤ R * cdiv D 1000 ∧ R * cdiv D 1000 ≤ 2147483647 →
          bufferSize D R = R * cdiv D 1000) := by
  obtain ⟨hbs, hst, _, hw⟩ := recordAudio_inv sm D R sdOk heap start obs res h
  refine ⟨?_, ⟨_, hw, ?_⟩, ?_⟩
  · rw [hst, recordAudioLoop_buffer_length]
    omega
  · show (((WAVFileWriter.new sdOk CHANNEL R (cdiv D 1000)).writeFrames
      (res.loopState.buffer.map (fun v => (v, v)))).close).m_totalSamples = bufferSize D R
    have hc : ∀ w : WAVFileWriter, w.close.m_totalSamples = w.m_totalSamples := fun _ => rfl
    rw [hc, writeFrames_totalSamples]
    rfl
  · intro hr
    exact int32_of_range _ ⟨by omega, hr.2⟩

/-- Witness of C25: the shipped call (8000 Hz, 2100 ms) made while a session
is playing has a buffer of 16000 slots. -/
theorem buffer_sizing_witness :
    ((recordAudioLoop 2100 8000 (fun _ => 0) 0 [⟨0, 0, 1234, false⟩]).1.buffer.length : Int)
      = bufferSize 2100 8000 :=
  (buffer_sizing SpeakerManager.playingTwoSamples
    2100 8000 true (fun _ => 0) 0 [⟨0, 0, 1234, false⟩] _ recordAudio_while_playing).1

/-- C25 as stated fails: for `R = 65536` and `D = 65536000` the product
`R * (D / 1000)` is 2^32, yet the buffer the call allocates has no slot. -/
theorem buffer_size_wraps :
    (65536 : Int) * cdiv 65536000 1000 = 4294967296
      ∧ bufferSize 65536000 65536 = 0
      ∧ (recordAudioLoop 65536000 65536 (fun _ => 0) 0 [⟨0, 0, 1234, false⟩]).1.buffer.length
        = 0 := by
  decide

/-! ## The sampling grid -/

theorem ulong_add_ulong (a b : Nat) : ulong (ulong a + b) = ulong (a + b) := by
  unfold ulong
  omega

theorem dueStep_stores_le (bs : Int) (interval t : Nat) (mic : Int) (st : RecState) :
    (dueStep bs interval t mic st).stores.length ≤ st.stores.length + 1 := by
  unfold dueStep
  split
  · split <;> simp
  · omega

theorem dueStep_grid (bs : Int) (s interval t : Nat) (mic : Int) (st : RecState) (j : Nat)
    (h : GridInv bs s interval j st) :
    GridInv bs s interval (j + (if ulong t ≥ st.nextSampleTime then 1 else 0))
      (dueStep bs interval t mic st) := by
  obtain ⟨h1, h2, h3⟩ := h
  have hsucc : (j + 1) * interval = j * interval + interval := by ring
  unfold dueStep
  by_cases hdue : ulong t ≥ st.nextSampleTime
  · rw [if_pos hdue, if_pos hdue]
    by_cases hroom : st.sampleIndex < bs
    · rw [if_pos hroom]
      refine ⟨?_, ?_, ?_⟩
      · show ulong (st.nextSampleTime + interval) = ulong (s + (j + 1) * interval)
        rw [h1, ulong_add_ulong, hsucc]
        congr 1
        omega
      · show (st.stores ++ [st.sampleIndex]).length = min (j + 1) bs.toNat
        simp only [List.length_append, List.length_singleton]
        omega
      · show st.sampleIndex + 1 = ((st.stores ++ [st.sampleIndex]).length : Int)
        simp only [List.length_append, List.length_singleton, Nat.cast_add, Nat.cast_one]
        omega
    · rw [if_neg hroom]
      refine ⟨?_, ?_, h3⟩
      · show ulong (st.nextSampleTime + interval) = ulong (s + (j + 1) * interval)
        rw [h1, ulong_add_ulong, hsucc]
        congr 1
        omega
      · show st.stores.length = min (j + 1) bs.toNat
        omega
  · rw [if_neg hdue, if_neg hdue]
    exact ⟨h1, h2, h3⟩

theorem recordLoop_grid (bs : Int) (s limit interval : Nat) (obs : List LoopObs) :
    ∀ (st : RecState) (j : Nat), GridInv bs s interval j st →
      GridInv bs s interval (j + dueTicks bs s limit interval obs st)
        (recordLoop bs s limit interval obs st).1 := by
  induction obs with
  | nil => intro st j h; exact h
  | cons o rest ih =>
    intro st j h
    unfold recordLoop dueTicks
    have hg := dueStep_grid bs s interval o.tDue o.mic st j h
    by_cases hc : ulongSub o.tCond s < limit
    · rw [if_pos hc, if_pos hc]
      by_cases hb : (!o.button) = true
      · rw [if_pos hb, if_pos hb]
        exact hg
      · rw [if_neg hb, if_neg hb]
        have := ih _ _ hg
        rw [Nat.add_assoc] at this
        exact this
    · rw [if_neg hc, if_neg hc]
      exact h

theorem dueTicks_le (bs : Int) (s limit interval : Nat) (obs : List LoopObs) :
    ∀ st : RecState, dueTicks bs s limit interval obs st ≤ obs.length := by
  induction obs with
  | nil => intro st; exact Nat.le_refl 0
  | cons o rest ih =>
    intro st
    unfold dueTicks
    simp only [List.length_cons]
    have := ih (dueStep bs interval o.tDue o.mic st)
    split
    · split <;> split <;> omega
    · omega

/-- What one pass through the due test does: when the test fails nothing
changes; when it passes the next-due time advances by one period, and a sample
is stored exactly when the buffer is not full. -/
theorem dueStep_cases (bs : Int) (interval t : Nat) (mic : Int) (st : RecState) :
    (¬ ulong t ≥ st.nextSampleTime → dueStep bs interval t mic st = st)
      ∧ (ulong t ≥ st.nextSampleTime →
          (dueStep bs interval t mic st).nextSampleTime = ulong (st.nextSampleTime + interval)
          ∧ (st.sampleIndex < bs →
              (dueStep bs interval t mic st).stores = st.stores ++ [st.sampleIndex])
          ∧ (¬ st.sampleIndex < bs → (dueStep bs interval t mic st).stores = st.stores)) := by
  unfold dueStep
  refine ⟨fun h => by rw [if_neg h], fun h => ?_⟩
  rw [if_pos h]
  refine ⟨?_, ?_, ?_⟩
  · split <;> rfl
  · intro hroom
    rw [if_pos hroom]
  · intro hroom
    rw [if_neg hroom]

/-- The sampling period for a positive rate. -/
theorem sampleInterval_of_pos (R : Int) (hR : 0 < R) :
    ((sampleInterval R : Nat) : Int) = 1000000 / R := by
  unfold sampleInterval uint32
  rw [cdiv_of_nonneg _ _ (by decide) (by omega)]
  have h1 : (0 : Int) ≤ 1000000 / R := Int.ediv_nonneg (by decide) (by omega)
  have h2 : (1000000 : Int) / R ≤ 1000000 := Int.ediv_le_self R (by decide)
  rw [Int.emod_eq_of_lt h1 (by omega)]
  exact Int.toNat_of_nonneg h1

/-- C24, as amended: in `recordAudio` the sampling period is
`1000000 / sample_rate` microseconds (integer division, `sample_rate > 0`),
the next-due time starts at the start time, and in every loop iteration a
failed due test `micros() >= nextSampleTime` changes nothing while a passed one
advances the next-due time by one period and stores one sample if the buffer
is not full and none otherwise, so at most one sample is stored per iteration.
After every loop iteration the next-due time equals, as a 32-bit value, start
time + `ticks` * period, where `ticks` (`recordAudioTicks`) is the number of
iterations so far whose due test passed; the number of samples stored is
`ticks` capped by the buffer size, so next-due = start + stored * period as
long as the buffer is not full. -/
theorem catch_up_grid (D R : Int) (hR : 0 < R) (heap : Nat → Int) (start : Nat)
    (obs : List LoopObs) :
    ((sampleInterval R : Nat) : Int) = 1000000 / R
      ∧ (recordAudioLoop D R heap start []).1.nextSampleTime = ulong start
      ∧ (∀ (t : Nat) (mic : Int) (st : RecState),
          (dueStep (bufferSize D R) (sampleInterval R) t mic st).stores.length
              ≤ st.stores.length + 1
          ∧ (¬ ulong t ≥ st.nextSampleTime →
              dueStep (bufferSize D R) (sampleInterval R) t mic st = st)
          ∧ (ulong t ≥ st.nextSampleTime →
              (dueStep (bufferSize D R) (sampleInterval R) t mic st).nextSampleTime
                = ulong (st.nextSampleTime + sampleInterval R)
              ∧ (st.sampleIndex < bufferSize D R →
                  (dueStep (bufferSize D R) (sampleInterval R) t mic st).stores
                    = st.stores ++ [st.sampleIndex])
              ∧ (¬ st.sampleIndex < bufferSize D R →
                  (dueStep (bufferSize D R) (sampleInterval R) t mic st).stores = st.stores)))
      ∧ recordAudioTicks D R heap start obs ≤ obs.length
      ∧ (recordAudioLoop D R heap start obs).1.nextSampleTime
          = ulong (start + recordAudioTicks D R heap start obs * sampleInterval R)
      ∧ (recordAudioLoop D R heap start obs).1.stores.length
          = min (recordAudioTicks D R heap start obs) (bufferSize D R).toNat
      ∧ (((recordAudioLoop D R heap start obs).1.stores.length : Int) < bufferSize D R →
          (recordAudioLoop D R heap start obs).1.nextSampleTime
            = ulong (start + (recordAudioLoop D R heap start obs).1.stores.length
                * sampleInterval R)) := by
  have hinit : GridInv (bufferSize D R) (ulong start) (sampleInterval R) 0
      ⟨allocBuffer heap (bufferSize D R).toNat, 0, ulong start, []⟩ := by
    refine ⟨?_, by simp, rfl⟩
    show ulong start = ulong (ulong start + 0 * sampleInterval R)
    rw [ulong_add_ulong]
    simp
  have hgrid := recordLoop_grid (bufferSize D R) (ulong start)
    (loopLimit D) (sampleInterval R) obs _ 0 hinit
  rw [Nat.zero_add] at hgrid
  obtain ⟨hnext, hstores, _⟩ := hgrid
  have hnext2 : (recordAudioLoop D R heap start obs).1.nextSampleTime
      = ulong (start + recordAudioTicks D R heap start obs * sampleInterval R) := by
    unfold recordAudioLoop recordAudioTicks
    rw [hnext, ulong_add_ulong]
  have hstores2 : (recordAudioLoop D R heap start obs).1.stores.length
      = min (recordAudioTicks D R heap start obs) (bufferSize D R).toNat := hstores
  refine ⟨sampleInterval_of_pos R hR, rfl,
    fun t mic st => ⟨dueStep_stores_le _ _ t mic st, dueStep_cases _ _ t mic st⟩,
    dueTicks_le _ _ _ _ obs _, hnext2, hstores2, ?_⟩
  intro hlt
  have : (recordAudioLoop D R heap start obs).1.stores.length
      = recordAudioTicks D R heap start obs := by omega
  rw [this]
  exact hnext2

/-- Witness of C24: the shipped rate of 8000 Hz gives a period of 125
microseconds. -/
theorem catch_up_grid_witness : ((sampleInterval 8000 : Nat) : Int) = 1000000 / 8000 :=
  (catch_up_grid 2100 8000 (by decide) (fun _ => 0) 0 [⟨0, 0, 1234, false⟩]).1

set_option maxRecDepth 100000 in
/-- C24 as stated fails: a 2100 ms recording at 20 Hz polled every half period
ends with 40 samples stored and the next-due time at 2100000 microseconds,
which is start + 42 periods, not start + 40 * 50000. -/
theorem next_due_runs_past_full_buffer :
    (recordAudioLoop 2100 20 (fun _ => 0) 0 halfPeriodTrace).1.stores.length = 40
      ∧ (recordAudioLoop 2100 20 (fun _ => 0) 0 halfPeriodTrace).1.nextSampleTime = 2100000
      ∧ ¬ ((recordAudioLoop 2100 20 (fun _ => 0) 0 halfPeriodTrace).1.nextSampleTime
          = 0 + (recordAudioLoop 2100 20 (fun _ => 0) 0 halfPeriodTrace).1.stores.length
              * sampleInterval 20) := by
  decide

/-! ## The frame cap -/

theorem le16_length (x : Int) : (le16 x).length = 2 := rfl

/-- With a frame cap of 32768 or more the 16-bit counter never reaches the
cap: every `writeFrame` call is accepted and appends one mono frame. -/
theorem writeFrames_never_capped (frames : List (Int × Int)) :
    ∀ w : WAVFileWriter, 32768 ≤ w.m_totalSamples →
      -32768 ≤ w.m_samplesWritten → w.m_samplesWritten ≤ 32767 →
      w.m_file.isOpen = true → w.m_file.pos = w.m_file.bytes.length →
      (w.writeFrames frames).m_file.bytes.length = w.m_file.bytes.length + 2 * frames.length := by
  induction frames with
  | nil => intro w _ _ _ _ _; rfl
  | cons fr rest ih =>
    intro w hT hlo hhi hopen hpos
    have hlt : w.m_samplesWritten < w.m_totalSamples := by omega
    have hne : ¬ CHANNEL = 2 := by decide
    have hstep : w.writeFrame fr.1 fr.2
        = { w with m_file := w.m_file.write (le16 fr.1),
                   m_samplesWritten := int16 (w.m_samplesWritten + 1) } := by
      simp only [WAVFileWriter.writeFrame, hlt, if_true, hne, if_false]
    have hfile : (w.m_file.write (le16 fr.1)).bytes.length = w.m_file.bytes.length + 2
        ∧ (w.m_file.write (le16 fr.1)).pos = (w.m_file.write (le16 fr.1)).bytes.length
        ∧ (w.m_file.write (le16 fr.1)).isOpen = true := by
      simp only [File.write, hopen, if_true, le16_length, hpos]
      refine ⟨?_, ?_, trivial⟩
      · simp [le16_length]
      · simp [le16_length]
    have hc : -32768 ≤ int16 (w.m_samplesWritten + 1) ∧ int16 (w.m_samplesWritten + 1) ≤ 32767 := by
      unfold int16
      omega
    rw [writeFrames_cons, hstep]
    have := ih { w with m_file := w.m_file.write (le16 fr.1),
                        m_samplesWritten := int16 (w.m_samplesWritten + 1) }
      hT hc.1 hc.2 hfile.2.2 hfile.2.1
    rw [this]
    show (w.m_file.write (le16 fr.1)).bytes.length + 2 * rest.length
      = w.m_file.bytes.length + 2 * (fr :: rest).length
    rw [hfile.1, List.length_cons]
    omega

/-- C26, evaluated at the failing input: a mono writer with frame cap
16000 * 3 = 48000 that receives 48001 `writeFrame` calls accepts them all: the
file holds 48001 frames (96002 data bytes after the 44-byte header), one more
than the cap. -/
theorem frame_cap_exceeded :
    (WAVFileWriter.new true 1 16000 3).m_totalSamples = 48000
      ∧ ((WAVFileWriter.new true 1 16000 3).writeFrames
          (List.replicate 48001 (0, 0))).m_file.bytes.length = 44 + 2 * 48001 := by
  refine ⟨by decide, ?_⟩
  have h := writeFrames_never_capped (List.replicate 48001 (0, 0))
    (WAVFileWriter.new true 1 16000 3) (by decide) (by decide) (by decide) (by decide)
    (by decide)
  rw [h, List.length_replicate, new_file_bytes, headerBytes_length]

/-! ## Reading inside the data region -/

theorem int32_bounds (x : Int) : -2147483648 ≤ int32 x ∧ int32 x ≤ 2147483647 := by
  unfold int32
  omega

/-- The reader left by `open` on a file that holds its header and `d` data
bytes satisfies the read invariant. -/
theorem opened_readInv (mem : WAVFileReader) (bs : List Nat) (d : Int)
    (hd : (parseHeader (bs.take 44)).dlength = d) (hd0 : 0 ≤ d)
    (hdata : 44 + d ≤ (bs.length : Int)) : ReadInv d (WAVFileReader.opened mem bs) := by
  have hlen : 44 ≤ bs.length := by omega
  have hl : min 44 bs.length = 44 := by omega
  have hopen : WAVFileReader.opened mem bs
      = { WAVFileReader.new mem (some bs) with
          m_file := ⟨true, bs, 44⟩
          m_header := parseHeader (bs.take 44)
          m_dataSize := (parseHeader (bs.take 44)).dlength
          m_currentPos := 0
          m_i2sOutput := some (I2SManager.new (parseHeader (bs.take 44)).srate).begin } := by
    simp [WAVFileReader.opened, WAVFileReader.open, WAVFileReader.new, File.openRead, File.read,
      sizeof_header, hl]
  rw [hopen]
  exact ⟨hd, rfl, le_refl _, hd0, by simp, by simp, hdata⟩

/-- One `readSample` under the read invariant, for an even data size: it
succeeds exactly when the offset is below the data size, then advances offset
and cursor by 2; otherwise it changes nothing. -/
theorem readSample_step (d : Int) (r : WAVFileReader) (heven : d % 2 = 0)
    (hmax : d ≤ 2147483647) (h : ReadInv d r) :
    (r.m_currentPos < d → r.readSample.1.isSome = true
        ∧ r.readSample.2.m_currentPos = r.m_currentPos + 2 ∧ ReadInv d r.readSample.2)
      ∧ (¬ r.m_currentPos < d → r.readSample = (none, r)) := by
  obtain ⟨h1, h2, h3, h4, h5, h6, h7⟩ := h
  constructor
  · intro hlt
    have hge : ¬ r.m_currentPos ≥ r.m_dataSize := by rw [h1]; omega
    have hgot : ((r.m_file.bytes.drop r.m_file.pos).take 2).length = 2 := by
      rw [List.length_take, List.length_drop]
      omega
    have hwrap : int32 (r.m_currentPos + 2) = r.m_currentPos + 2 :=
      int32_of_range _ (by unfold InInt32; omega)
    have hrs : r.readSample
        = (some (rd16 ((r.m_file.bytes.drop r.m_file.pos).take 2) 0),
            { r with m_file := { r.m_file with pos := r.m_file.pos + 2 },
                     m_currentPos := r.m_currentPos + 2 }) := by
      simp only [WAVFileReader.readSample, hge, if_false, File.read, h2, if_true, hgot, ne_eq,
        not_true_eq_false, hwrap]
    rw [hrs]
    refine ⟨rfl, rfl, h1, h2, ?_, ?_, ?_, ?_, h7⟩
    · show 0 ≤ r.m_currentPos + 2
      omega
    · show r.m_currentPos + 2 ≤ d
      omega
    · show (r.m_currentPos + 2) % 2 = 0
      omega
    · show ((r.m_file.pos + 2 : Nat) : Int) = 44 + (r.m_currentPos + 2)
      omega
  · intro hnot
    have hge : r.m_currentPos ≥ r.m_dataSize := by rw [h1]; omega
    simp only [WAVFileReader.readSample, hge, if_true]

theorem readSamples_inv (d : Int) (r : WAVFileReader) (heven : d % 2 = 0)
    (hmax : d ≤ 2147483647) (h : ReadInv d r) (hstart : r.m_currentPos = 0) :
    ∀ n : Nat, ReadInv d (r.readSamples n)
      ∧ (r.readSamples n).m_currentPos = min (2 * (n : Int)) d := by
  intro n
  induction n with
  | zero =>
    refine ⟨h, ?_⟩
    show r.m_currentPos = min (2 * ((0 : Nat) : Int)) d
    obtain ⟨_, _, _, h4, _⟩ := h
    rw [hstart] at h4 ⊢
    simp only [Nat.cast_zero]
    omega
  | succ k ih =>
    obtain ⟨hinv, hpos⟩ := ih
    obtain ⟨hs, hf⟩ := readSample_step d (r.readSamples k) heven hmax hinv
    show ReadInv d (r.readSamples k).readSample.2
      ∧ (r.readSamples k).readSample.2.m_currentPos = min (2 * ((k + 1 : Nat) : Int)) d
    have hinv0 := hinv
    obtain ⟨_, _, _, h4, h5, _⟩ := hinv0
    by_cases hlt : (r.readSamples k).m_currentPos < d
    · obtain ⟨_, hadv, hinv2⟩ := hs hlt
      refine ⟨hinv2, ?_⟩
      rw [hadv, hpos]
      rw [hpos] at hlt h5
      simp only [Nat.cast_add, Nat.cast_one]
      omega
    · rw [hf hlt]
      refine ⟨hinv, ?_⟩
      show (r.readSamples k).m_currentPos = min (2 * ((k + 1 : Nat) : Int)) d
      rw [hpos] at hlt ⊢
      simp only [Nat.cast_add, Nat.cast_one]
      omega

/-- C28, as amended: for every even header data length `d >= 0` and every
file holding at least `d` data bytes after the 44-byte header, repeated
`readSample` calls from offset 0 succeed exactly while the offset is below
`d`; each success advances the offset by exactly 2 and a failure leaves it
unchanged; after `n` calls the offset is `min(2n, d)`, so the number of data
bytes consumed (the cursor minus 44) never exceeds `d`; and `isEnd()` is true
exactly when the next `readSample` fails. -/
theorem playback_stays_inside_data (mem : WAVFileReader) (bs : List Nat) (d : Int)
    (hd : (parseHeader (bs.take 44)).dlength = d) (hd0 : 0 ≤ d) (heven : d % 2 = 0)
    (hdata : 44 + d ≤ (bs.length : Int)) (n : Nat) :
    ((WAVFileReader.opened mem bs).readSamples n).m_currentPos = min (2 * (n : Int)) d
      ∧ (((WAVFileReader.opened mem bs).readSamples n).m_file.pos : Int)
          = 44 + ((WAVFileReader.opened mem bs).readSamples n).m_currentPos
      ∧ ((WAVFileReader.opened mem bs).readSamples n).m_currentPos ≤ d
      ∧ (((WAVFileReader.opened mem bs).readSamples n).m_currentPos < d →
          ((WAVFileReader.opened mem bs).readSamples n).readSample.1.isSome = true
          ∧ ((WAVFileReader.opened mem bs).readSamples n).readSample.2.m_currentPos
              = ((WAVFileReader.opened mem bs).readSamples n).m_currentPos + 2)
      ∧ (¬ ((WAVFileReader.opened mem bs).readSamples n).m_currentPos < d →
          ((WAVFileReader.opened mem bs).readSamples n).readSample.1 = none
          ∧ ((WAVFileReader.opened mem bs).readSamples n).readSample.2.m_currentPos
              = ((WAVFileReader.opened mem bs).readSamples n).m_currentPos)
      ∧ (((WAVFileReader.opened mem bs).readSamples n).isEnd = true
          ↔ ((WAVFileReader.opened mem bs).readSamples n).readSample.1 = none) := by
  have hmax : d ≤ 2147483647 := by
    rw [← hd]
    exact (int32_bounds _).2
  have h0 := opened_readInv mem bs d hd hd0 hdata
  obtain ⟨hinv, hpos⟩ := readSamples_inv d (WAVFileReader.opened mem bs) heven hmax h0
    (by obtain ⟨_, _, _, _, _, h6, _⟩ := h0
        have : (WAVFileReader.opened mem bs).m_file.pos = 44 := by
          have hlen : 44 ≤ bs.length := by omega
          have hl : min 44 bs.length = 44 := by omega
          simp [WAVFileReader.opened, WAVFileReader.open, WAVFileReader.new, File.openRead,
            File.read, sizeof_header, hl]
        omega) n
  obtain ⟨hs, hf⟩ := readSample_step d _ heven hmax hinv
  obtain ⟨h1, _, _, h4, _, h6, _⟩ := hinv
  refine ⟨hpos, h6, h4, fun hlt => ⟨(hs hlt).1, (hs hlt).2.1⟩, ?_, ?_⟩
  · intro hnot
    rw [hf hnot]
    exact ⟨rfl, rfl⟩
  · unfold WAVFileReader.isEnd
    rw [decide_eq_true_eq, h1]
    constructor
    · intro hge
      rw [hf (by omega)]
    · intro hnone
      by_contra hlt
      have := (hs (by omega)).1
      rw [hnone] at this
      exact absurd this (by decide)

/-- Witness of C28: the two-sample file (`d = 4`) after two reads. -/
theorem playback_stays_inside_data_witness :
    ((WAVFileReader.opened WAVFileReader.blank twoSampleFile).readSamples 2).m_currentPos
      = min (2 * ((2 : Nat) : Int)) 4 :=
  (playback_stays_inside_data WAVFileReader.blank twoSampleFile 4 (by decide) (by decide)
    (by decide) (by decide) 2).1

/-- C28 as stated fails: with a header data length of 3 and exactly three data
bytes in the file, after one successful read the offset 2 is below 3, yet the
next `readSample` fails while `isEnd()` is false. -/
theorem odd_data_length_read_fails :
    (WAVFileReader.opened WAVFileReader.blank oddDataFile).m_dataSize = 3
      ∧ ((WAVFileReader.opened WAVFileReader.blank oddDataFile).readSamples 1).m_currentPos = 2
      ∧ ((WAVFileReader.opened WAVFileReader.blank oddDataFile).readSamples 1).readSample.1
          = none
      ∧ ((WAVFileReader.opened WAVFileReader.blank oddDataFile).readSamples 1).isEnd = false := by
  decide

end PlushToy
